import Mathlib

/-! # fx2adc: streaming engine, device catalog, firmware upload and Si5351 clock generator

A shallow embedding of the parts of `libfx2adc.c`, `ezusb.c` and `si5351.c`
that the streaming state machine, the completion handler, the bit reversal,
the closest-match setters, the device catalog and enumeration, the firmware
upload, the PLL calculator and the register programming consist of, followed
by the properties settled about them.

Conventions of the embedding:
* `uint8_t`, `uint32_t` and `unsigned int` values are natural numbers, reduced
  modulo `2^8` or `2^32` wherever the C code can wrap;
* `int32_t` arithmetic in `si5351.c` is checked: an operation whose
  mathematical result leaves the `int32_t` range, or a division by zero,
  yields `none`; the setters of `libfx2adc.c` are modelled as compiled, with
  two's-complement wrap-around (`wrap32`);
* a pointer that may be `NULL` is an `Option`;
* the USB transport, the allocator and the user callback are a script of
  answers (`Transport`), the bus is a list of device lists, one per
  enumeration pass (`OpenEnv`), and every call made to them is recorded in a
  log;
* a loop that the C code does not bound is given a script or a number of
  iterations; `none` then stands for a run that has not returned.
-/

namespace Fx2adc

/-! ## Data model (libfx2adc.c, lines 153-200) -/

/-- Transfer status codes of the transport (`enum libusb_transfer_status`). -/
inductive libusb_transfer_status where
  | LIBUSB_TRANSFER_COMPLETED
  | LIBUSB_TRANSFER_ERROR
  | LIBUSB_TRANSFER_TIMED_OUT
  | LIBUSB_TRANSFER_CANCELLED
  | LIBUSB_TRANSFER_STALL
  | LIBUSB_TRANSFER_NO_DEVICE
  | LIBUSB_TRANSFER_OVERFLOW
  deriving DecidableEq, Repr

open libusb_transfer_status

/-- Tri-state of the streaming engine (`enum fx2adc_async_status`). -/
inductive fx2adc_async_status where
  | FX2ADC_INACTIVE
  | FX2ADC_CANCELING
  | FX2ADC_RUNNING
  deriving DecidableEq, Repr

open fx2adc_async_status

/-- Catalog entry (`fx2adc_devinfo_t`); `vdivs` holds the divider table as
numerator and denominator pairs, its length is `vdivs_size`. -/
structure fx2adc_devinfo_t where
  orig_vid : Nat
  orig_pid : Nat
  fw_vid : Nat
  fw_pid : Nat
  fw_prod_ver : Nat
  vendor : String
  model : String
  firmware : String
  has_coupling : Bool
  vdivs : List (Nat × Nat)
  ch1_bitreversed : Bool
  deriving DecidableEq, Repr

/-- The fields of `struct libusb_transfer` the engine reads or writes. The
bytes of the buffer the transfer points at are kept with the transfer: they
are indeterminate until the transport fills the buffer, so the model holds
them from the first completion on. `actual_length` is a non-negative `int`. -/
structure libusb_transfer where
  status : libusb_transfer_status
  actual_length : Nat
  buffer : List Nat
  deriving DecidableEq, Repr

/-- Session (`struct fx2adc_dev`). `xfer` is the transfer array (`none` is
`NULL`), `xfer_buf` the buffer pointer array: per slot whether the pointer is
non-`NULL`. `cb` is the callback pointer (`none` is `NULL`). -/
structure fx2adc_dev where
  devinfo : fx2adc_devinfo_t
  xfer_buf_num : Nat
  xfer_buf_len : Nat
  xfer : Option (List libusb_transfer)
  xfer_buf : Option (List Bool)
  cb : Option Nat
  cb_ctx : Nat
  async_status : fx2adc_async_status
  async_cancel : Int
  use_zerocopy : Int
  rate : Nat
  vdiv : Nat
  clockgen_present : Bool
  dev_lost : Int
  driver_active : Int
  xfer_errors : Nat
  deriving DecidableEq, Repr

/-- Calls the engine makes to the transport, the allocator and the user. -/
inductive UsbCall where
  | alloc_transfer (i : Nat)
  | alloc_buffer (i : Nat) (len : Nat)
  | free_transfer (i : Nat)
  | free_buffer (i : Nat)
  | submit_transfer (i : Nat)
  | cancel_transfer (i : Nat)
  | control_write (req : Nat) (value : Nat)
  | handle_events
  | user_cb (buf : List Nat) (len : Nat) (ctx : Nat)
  deriving DecidableEq, Repr

def DEFAULT_BUF_NUMBER : Nat := 15
def DEFAULT_BUF_LENGTH : Nat := 16 * 32 * 512
def TRIGGER_REG : Nat := 0xe3
def LIBUSB_ERROR_INTERRUPTED : Int := -10
def ENOMEM : Int := 12

/-! ## Bit reversal (libfx2adc.c, lines 882-892) -/

/-- The nibble table of `bitrev`. -/
def bitrev_lut : List Nat :=
  [0x0, 0x8, 0x4, 0xc, 0x2, 0xa, 0x6, 0xe, 0x1, 0x9, 0x5, 0xd, 0x3, 0xb, 0x7, 0xf]

/-- `bitrev`, the table implementation: the argument and the result are
`uint8_t`. -/
def bitrev (byte : Nat) : Nat :=
  let byte := byte % 256
  ((bitrev_lut.getD (byte &&& 0xf) 0 <<< 4) ||| bitrev_lut.getD (byte >>> 4) 0) % 256

/-- The loop `for (i = 0; i < actual_length; i++) buffer[i] = bitrev(buffer[i])`. -/
def bitrev_buffer (buffer : List Nat) (actual_length : Nat) : List Nat :=
  (List.range actual_length).foldl (fun b i => b.set i (bitrev (b.getD i 0))) buffer

/-! ## Cancellation request (libfx2adc.c, lines 1165-1185) -/

/-- `fx2adc_cancel_async` on a non-`NULL` session: the return code and the
session afterwards. -/
def fx2adc_cancel_async (dev : fx2adc_dev) : Int × fx2adc_dev :=
  if dev.async_status = FX2ADC_RUNNING then
    (0, { dev with async_status := FX2ADC_CANCELING, async_cancel := 1 })
  else
    (-2, dev)

/-! ## Completion handler (libfx2adc.c, lines 894-930, non-Windows build) -/

/-- What the user callback does with the session during one invocation: the
session type is opaque to the user, and the front-ends call
`fx2adc_cancel_async` from their callback. -/
def user_callback (calls_cancel : Bool) (dev : fx2adc_dev) : fx2adc_dev :=
  if calls_cancel then (fx2adc_cancel_async dev).2 else dev

/-- `_libusb_callback` for the transfer `xfer` of session `dev`:
the transfer, the session and the calls made. `calls_cancel` says whether the
user callback, if it is invoked, calls `fx2adc_cancel_async`. -/
def _libusb_callback (calls_cancel : Bool) (xfer : libusb_transfer) (dev : fx2adc_dev)
    (i : Nat) : libusb_transfer × fx2adc_dev × List UsbCall :=
  if xfer.status = LIBUSB_TRANSFER_COMPLETED then
    match dev.cb with
    | some _ =>
      let xfer1 :=
        if dev.devinfo.ch1_bitreversed then
          { xfer with buffer := bitrev_buffer xfer.buffer xfer.actual_length }
        else xfer
      let dev1 := user_callback calls_cancel dev
      (xfer1, { dev1 with xfer_errors := 0 },
        [UsbCall.user_cb xfer1.buffer xfer1.actual_length dev.cb_ctx,
         UsbCall.submit_transfer i])
    | none => (xfer, { dev with xfer_errors := 0 }, [UsbCall.submit_transfer i])
  else if xfer.status ≠ LIBUSB_TRANSFER_CANCELLED then
    let dev1 :=
      if xfer.status = LIBUSB_TRANSFER_ERROR then
        { dev with xfer_errors := (dev.xfer_errors + 1) % 2 ^ 32 }
      else dev
    if dev1.xfer_errors ≥ dev1.xfer_buf_num ∨ xfer.status = LIBUSB_TRANSFER_NO_DEVICE then
      (xfer, (fx2adc_cancel_async { dev1 with dev_lost := 1 }).2, [])
    else
      (xfer, dev1, [])
  else
    (xfer, dev, [])

/-! ## Transport script -/

/-- One completion the transport delivers while events are handled: the
transfer slot, its final status and length, the buffer as the transport left
it, and whether the user callback (if invoked) requests cancellation. -/
structure Completion where
  idx : Nat
  status : libusb_transfer_status
  actual_length : Nat
  data : List Nat
  calls_cancel : Bool

/-- One call of `libusb_handle_events_timeout_completed`: its return code,
whether `fx2adc_cancel_async` arrives from another context (a signal handler)
while it waits, and the completions it dispatches. -/
structure HandleEvents where
  r : Int
  async_cancel : Bool
  completions : List Completion

/-- The answers of the transport during one pass of the poll loop: the main
wait, for transfer `i` the return code of `libusb_cancel_transfer` and the
zero-timeout event handling after it, and the final zero-timeout drain. -/
structure PollIter where
  main : HandleEvents
  cancel : Nat → Int × HandleEvents
  drain : HandleEvents

/-- Outcome of mapping one zero-copy buffer. -/
inductive ZeroCopyAlloc where
  | failed
  | dirty
  | zeroed
  deriving DecidableEq, Repr

/-- The answers of the transport and the allocator for one streaming call.
`zerocopy` is `none` when the zero-copy path is not compiled in. -/
structure Transport where
  zerocopy : Option (Nat → ZeroCopyAlloc)
  malloc_ok : Nat → Bool
  submit : Nat → Int
  iters : List PollIter

/-- A transfer as `libusb_alloc_transfer` returns it (zero-initialised). -/
def fresh_transfer : libusb_transfer :=
  { status := LIBUSB_TRANSFER_COMPLETED, actual_length := 0, buffer := [] }

/-- Delivery of one completion: the transport stores status, length and data
in the transfer and calls `_libusb_callback` on it. -/
def deliver (st : fx2adc_dev × List UsbCall) (c : Completion) : fx2adc_dev × List UsbCall :=
  match st.1.xfer with
  | none => st
  | some xs =>
    match xs.get? c.idx with
    | none => st
    | some x =>
      let x1 : libusb_transfer :=
        { x with status := c.status, actual_length := c.actual_length, buffer := c.data }
      let res := _libusb_callback c.calls_cancel x1 st.1 c.idx
      ({ res.2.1 with xfer := some (xs.set c.idx res.1) }, st.2 ++ res.2.2)

/-- One call of `libusb_handle_events_timeout_completed`. -/
def handle_events (ev : HandleEvents) (st : fx2adc_dev × List UsbCall) :
    fx2adc_dev × List UsbCall :=
  let dev0 := if ev.async_cancel then (fx2adc_cancel_async st.1).2 else st.1
  ev.completions.foldl deliver (dev0, st.2 ++ [UsbCall.handle_events])

/-! ## Buffer pool (libfx2adc.c, lines 932-1048) -/

/-- The zero-copy loop of `_fx2adc_alloc_async_buffers` from slot `i` on,
`n` slots left: the flag `use_zerocopy`, the buffer array and the calls. -/
def zerocopy_loop (f : Nat → ZeroCopyAlloc) (len : Nat) :
    Nat → Nat → List Bool → List UsbCall → Int × List Bool × List UsbCall
  | 0, _, bufs, log => (1, bufs, log)
  | n + 1, i, bufs, log =>
    match f i with
    | ZeroCopyAlloc.zeroed =>
      zerocopy_loop f len n (i + 1) (bufs.set i true) (log ++ [UsbCall.alloc_buffer i len])
    | ZeroCopyAlloc.dirty => (0, bufs.set i true, log ++ [UsbCall.alloc_buffer i len])
    | ZeroCopyAlloc.failed => (0, bufs.set i false, log ++ [UsbCall.alloc_buffer i len])

/-- The heap loop of `_fx2adc_alloc_async_buffers` from slot `i` on, `n` slots
left: `true` when every allocation succeeded, the buffer array, the calls. -/
def malloc_loop (ok : Nat → Bool) (len : Nat) :
    Nat → Nat → List Bool → List UsbCall → Bool × List Bool × List UsbCall
  | 0, _, bufs, log => (true, bufs, log)
  | n + 1, i, bufs, log =>
    if ok i then
      malloc_loop ok len n (i + 1) (bufs.set i true) (log ++ [UsbCall.alloc_buffer i len])
    else
      (false, bufs.set i false, log ++ [UsbCall.alloc_buffer i len])

/-- The calls freeing every non-`NULL` buffer of the array. -/
def free_buffers (bufs : List Bool) (n : Nat) : List UsbCall :=
  ((List.range n).filter (fun i => bufs.getD i false)).map UsbCall.free_buffer

/-- `_fx2adc_alloc_async_buffers` on a non-`NULL` session. Every transfer
that `libusb_alloc_transfer` returns is taken to be non-`NULL`. -/
def _fx2adc_alloc_async_buffers (t : Transport) (dev : fx2adc_dev) :
    Int × fx2adc_dev × List UsbCall :=
  let dev1 : fx2adc_dev × List UsbCall :=
    match dev.xfer with
    | none =>
      ({ dev with xfer := some (List.replicate dev.xfer_buf_num fresh_transfer) },
        (List.range dev.xfer_buf_num).map UsbCall.alloc_transfer)
    | some _ => (dev, [])
  match dev1.1.xfer_buf with
  | some _ => (-2, dev1.1, dev1.2)
  | none =>
    let n := dev1.1.xfer_buf_num
    let len := dev1.1.xfer_buf_len
    let bufs0 := List.replicate n false
    let zc : Int × List Bool × List UsbCall :=
      match t.zerocopy with
      | none => (dev1.1.use_zerocopy, bufs0, dev1.2)
      | some f =>
        let z := zerocopy_loop f len n 0 bufs0 dev1.2
        if z.1 = 0 then (z.1, z.2.1, z.2.2 ++ free_buffers z.2.1 n) else z
    if zc.1 = 0 then
      let h := malloc_loop t.malloc_ok len n 0 zc.2.1 zc.2.2
      let dev2 := { dev1.1 with use_zerocopy := zc.1, xfer_buf := some h.2.1 }
      if h.1 then (0, dev2, h.2.2) else (-ENOMEM, dev2, h.2.2)
    else
      (0, { dev1.1 with use_zerocopy := zc.1, xfer_buf := some zc.2.1 }, zc.2.2)

/-- `_fx2adc_free_async_buffers` on a non-`NULL` session. -/
def _fx2adc_free_async_buffers (dev : fx2adc_dev) : Int × fx2adc_dev × List UsbCall :=
  let log1 : List UsbCall :=
    match dev.xfer with
    | some _ => (List.range dev.xfer_buf_num).map UsbCall.free_transfer
    | none => []
  let log2 : List UsbCall :=
    match dev.xfer_buf with
    | some bufs => free_buffers bufs dev.xfer_buf_num
    | none => []
  (0, { dev with xfer := none, xfer_buf := none }, log1 ++ log2)

/-! ## Streaming call (libfx2adc.c, lines 1050-1163) -/

/-- State of the locals of `fx2adc_read` next to the session: `r`,
`next_status` and the calls made so far. -/
structure ReadState where
  dev : fx2adc_dev
  r : Int
  next_status : fx2adc_async_status
  log : List UsbCall

/-- Lines 1065-1079 of `fx2adc_read`: the session is marked running, the
callback is installed and the buffer count and length are resolved. -/
def fx2adc_read_setup (dev : fx2adc_dev) (cb : Option Nat) (ctx : Nat)
    (buf_num buf_len : Nat) : fx2adc_dev :=
  { dev with
    async_status := FX2ADC_RUNNING
    async_cancel := 0
    cb := cb
    cb_ctx := ctx
    xfer_buf_num := if buf_num > 0 then buf_num else DEFAULT_BUF_NUMBER
    xfer_buf_len := if buf_len > 0 ∧ buf_len % 512 = 0 then buf_len else DEFAULT_BUF_LENGTH }

/-- Lines 1083-1104: the transfers are filled and submitted in order from
slot `i` on, `n` slots left; the first failed submission marks the session
canceling and stops the loop. -/
def submit_loop (submit : Nat → Int) : Nat → Nat → ReadState → ReadState
  | 0, _, st => st
  | n + 1, i, st =>
    let r := submit i
    let st1 := { st with r := r, log := st.log ++ [UsbCall.submit_transfer i] }
    if r < 0 then
      { st1 with dev := { st1.dev with async_status := FX2ADC_CANCELING } }
    else
      submit_loop submit n (i + 1) st1

/-- One step of the loop of lines 1125-1145 for slot `i`. -/
def cancel_step (cancel : Nat → Int × HandleEvents) (st : ReadState) (i : Nat) : ReadState :=
  match st.dev.xfer with
  | none => st
  | some xs =>
    match xs.get? i with
    | none => st
    | some x =>
      if x.status ≠ LIBUSB_TRANSFER_CANCELLED then
        let r := (cancel i).1
        let h := handle_events (cancel i).2 (st.dev, st.log ++ [UsbCall.cancel_transfer i])
        if r < 0 then
          { st with dev := h.1, r := r, log := h.2 }
        else
          { dev := h.1, r := r, next_status := FX2ADC_CANCELING, log := h.2 }
      else st

/-- The poll loop of lines 1109-1156 over the scripted passes; `none` when
the script ends while the loop is still running. -/
def poll_loop : List PollIter → ReadState → Option ReadState
  | iters, st =>
    if st.dev.async_status = FX2ADC_INACTIVE then some st
    else
      match iters with
      | [] => none
      | it :: rest =>
        let h := handle_events it.main (st.dev, st.log)
        let st1 : ReadState := { st with dev := h.1, r := it.main.r, log := h.2 }
        if it.main.r < 0 then
          if it.main.r = LIBUSB_ERROR_INTERRUPTED then poll_loop rest st1
          else some st1
        else if st1.dev.async_status = FX2ADC_CANCELING then
          let st2 : ReadState := { st1 with next_status := FX2ADC_INACTIVE }
          match st2.dev.xfer with
          | none => some st2
          | some _ =>
            let st3 := (List.range st2.dev.xfer_buf_num).foldl (cancel_step it.cancel) st2
            if st3.dev.dev_lost ≠ 0 ∨ st3.next_status = FX2ADC_INACTIVE then
              let d := handle_events it.drain (st3.dev, st3.log)
              some { st3 with dev := d.1, log := d.2 }
            else poll_loop rest st3
        else poll_loop rest st1

/-- `fx2adc_read` on a non-`NULL` session: the return code, the session on
return and the calls made; `none` when the scripted transport ends before the
poll loop does. -/
def fx2adc_read (t : Transport) (dev : fx2adc_dev) (cb : Option Nat) (ctx : Nat)
    (buf_num buf_len : Nat) : Option (Int × fx2adc_dev × List UsbCall) :=
  if dev.async_status ≠ FX2ADC_INACTIVE then some (-2, dev, [])
  else
    let dev1 := fx2adc_read_setup dev cb ctx buf_num buf_len
    let a := _fx2adc_alloc_async_buffers t dev1
    let st0 : ReadState :=
      { dev := a.2.1, r := 0, next_status := FX2ADC_INACTIVE, log := a.2.2 }
    let st1 := submit_loop t.submit st0.dev.xfer_buf_num 0 st0
    let st2 := { st1 with log := st1.log ++ [UsbCall.control_write TRIGGER_REG 1] }
    match poll_loop t.iters st2 with
    | none => none
    | some st3 =>
      let f := _fx2adc_free_async_buffers st3.dev
      some (st3.r, { f.2.1 with async_status := st3.next_status }, st3.log ++ f.2.2)

/-! ## Si5351 calculator (si5351.c, lines 305-377) -/

def INT32_MIN : Int := -2147483648
def INT32_MAX : Int := 2147483647

/-- The value of an `int32_t` expression: `none` when the mathematical result
does not fit (signed overflow). -/
def i32 (v : Int) : Option Int :=
  if INT32_MIN ≤ v ∧ v ≤ INT32_MAX then some v else none

/-- The quotient `a / b` of C on `int32_t` (truncating): `none` on a zero
divisor or on overflow. -/
def i32_div (a b : Int) : Option Int :=
  if b = 0 then none else i32 (Int.tdiv a b)

/-- The remainder `a % b` of C on `int32_t`: `none` on a zero divisor or when
the quotient overflows. -/
def i32_mod (a b : Int) : Option Int :=
  if b = 0 then none
  else if a = INT32_MIN ∧ b = -1 then none
  else some (Int.tmod a b)

/-- Modelled from the spec: the R-divider selector `si5351RDiv_t` of
`si5351.h`, a header absent from the sources; `si5351_Calc` names these two
values (R-divider of 1 and of 64). -/
inductive si5351RDiv_t where
  | SI5351_R_DIV_1
  | SI5351_R_DIV_64
  deriving DecidableEq, Repr

open si5351RDiv_t

/-- PLL feedback ratio `mult + num/denom` (`si5351PLLConfig_t`). -/
structure si5351PLLConfig_t where
  mult : Int
  num : Int
  denom : Int
  deriving DecidableEq, Repr

/-- Output divider ratio `div + num/denom` with the R-divider
(`si5351OutputConfig_t`). -/
structure si5351OutputConfig_t where
  allowIntegerMode : Nat
  div : Int
  num : Int
  denom : Int
  rdiv : si5351RDiv_t
  deriving DecidableEq, Repr

/-- Lines 338-376 of `si5351_Calc`: the ratios for the corrected target
`Fclk`, with the R-divider chosen before. -/
def si5351_Calc_ratios (Fclk : Int) (rdiv : si5351RDiv_t) :
    Option (si5351PLLConfig_t × si5351OutputConfig_t) := do
  let Fxtal : Int := 25000000
  if Fclk < 81000000 then
    let Fpll : Int := 900000000
    let x ← i32_div Fpll Fclk
    let t ← i32 ((Fclk >>> (20 : Nat)) + 1)
    let m ← i32_mod Fpll Fclk
    let y ← i32_div m t
    let z ← i32_div Fclk t
    pure ({ mult := 36, num := 0, denom := 1 },
          { allowIntegerMode := 1, div := x, num := y, denom := z, rdiv := rdiv })
  else
    let x : Int := if Fclk ≥ 150000000 then 4 else if Fclk ≥ 100000000 then 6 else 8
    let numerator ← i32 (x * Fclk)
    let a ← i32_div numerator Fxtal
    let t ← i32 ((Fxtal >>> (20 : Nat)) + 1)
    let m ← i32_mod numerator Fxtal
    let b ← i32_div m t
    let c ← i32_div Fxtal t
    pure ({ mult := a, num := b, denom := c },
          { allowIntegerMode := 1, div := x, num := 0, denom := 1, rdiv := rdiv })

/-- `si5351_Calc` with the global `si5351Correction` as second argument:
the two configurations it stores, or `none` when a step overflows `int32_t`
or divides by zero. Lines 309-324 clamp the request, choose the R-divider
and apply the correction. -/
def si5351_Calc (Fclk si5351Correction : Int) :
    Option (si5351PLLConfig_t × si5351OutputConfig_t) := do
  let Fclk0 : Int :=
    if Fclk < 8000 then 8000 else if Fclk > 160000000 then 160000000 else Fclk
  let Fclk1 ← if Fclk0 < 1000000 then i32 (Fclk0 * 64) else some Fclk0
  let rdiv := if Fclk0 < 1000000 then SI5351_R_DIV_64 else SI5351_R_DIV_1
  let q ← i32_div Fclk1 1000000
  let p ← i32 (q * si5351Correction)
  let d ← i32_div p 100
  let Fclk2 ← i32 (Fclk1 - d)
  si5351_Calc_ratios Fclk2 rdiv

/-- The crystal frequency in Hz. -/
def Fxtal : ℚ := 25000000

/-- The output frequency `Fxtal * N / M` of a configuration, in exact
rational arithmetic, with `N = mult + num/denom` and `M = div + num/denom`. -/
def si5351_freq (pll : si5351PLLConfig_t) (out : si5351OutputConfig_t) : ℚ :=
  Fxtal * ((pll.mult : ℚ) + (pll.num : ℚ) / (pll.denom : ℚ)) /
    ((out.div : ℚ) + (out.num : ℚ) / (out.denom : ℚ))

/-- The internal target of `si5351_Calc` for an in-range request and
correction 0: `64 * Fclk` below 1 MHz, `Fclk` otherwise. -/
def adjusted_target (Fclk : Int) : Int :=
  if Fclk < 1000000 then 64 * Fclk else Fclk

/-- The representative targets of the accuracy property. -/
def representative_targets : List Int :=
  [8000, 500000, 1000000, 50000000, 100000000, 150000000, 160000000]

/-! ## Sample sessions and transports -/

/-- The catalog entry of the Hantek PSO2020 (libfx2adc.c, lines 266-270), the
profile with bit-reversed channel 1. -/
def profile_pso2020 : fx2adc_devinfo_t :=
  { orig_vid := 0x04b4, orig_pid := 0x6023, fw_vid := 0x1d50, fw_pid := 0x608e,
    fw_prod_ver := 0x0006, vendor := "Hantek", model := "PSO2020",
    firmware := "fx2lafw-hantek-pso2020.fw", has_coupling := true,
    vdivs := [(10, 1), (5, 1), (2, 1), (1, 1), (500, 1000), (200, 1000), (100, 1000),
      (50, 1000)],
    ch1_bitreversed := true }

/-- A session as `fx2adc_open` leaves it: zeroed by `memset`, the profile and
the default rate set, the clock generator absent. -/
def idle_session (info : fx2adc_devinfo_t) : fx2adc_dev :=
  { devinfo := info, xfer_buf_num := 0, xfer_buf_len := 0, xfer := none, xfer_buf := none,
    cb := none, cb_ctx := 0, async_status := FX2ADC_INACTIVE, async_cancel := 0,
    use_zerocopy := 0, rate := 30000000, vdiv := 0, clockgen_present := false,
    dev_lost := 0, driver_active := 0, xfer_errors := 0 }

/-- A running session with the default 15 buffers, a callback installed and
14 transfer errors counted so far. -/
def running_session : fx2adc_dev :=
  { idle_session profile_pso2020 with
    xfer_buf_num := 15, xfer_buf_len := 512, cb := some 1, cb_ctx := 7,
    async_status := FX2ADC_RUNNING, xfer_errors := 14 }

/-- A transfer with the given final status whose buffer of four bytes has
been filled up to the second byte. -/
def sample_transfer (st : libusb_transfer_status) : libusb_transfer :=
  { status := st, actual_length := 2, buffer := [0x01, 0x80, 0x0f, 0xa5] }

/-- The buffer count and the buffer length of a session. -/
def bufcfg (dev : fx2adc_dev) : Nat × Nat := (dev.xfer_buf_num, dev.xfer_buf_len)

/-- A pass of the poll loop after a failed initial submission: nothing is
delivered and every `libusb_cancel_transfer` returns
`LIBUSB_ERROR_NOT_FOUND`, as no transfer is in flight. -/
def pass_nothing_in_flight : PollIter :=
  { main := { r := 0, async_cancel := false, completions := [] },
    cancel := fun _ => (-5, { r := 0, async_cancel := false, completions := [] }),
    drain := { r := 0, async_cancel := false, completions := [] } }

/-- A call of event handling that returns `r` and dispatches nothing. -/
def quiet_events (r : Int) : HandleEvents :=
  { r := r, async_cancel := false, completions := [] }

/-- A pass of the poll loop in which a cancellation request arrives from a
signal handler during the main wait, every `libusb_cancel_transfer` returns 0
and no completion is delivered yet. -/
def pass_cancel_requested : PollIter :=
  { main := { r := 0, async_cancel := true, completions := [] },
    cancel := fun _ => (0, quiet_events 0),
    drain := quiet_events 0 }

/-- A pass of the poll loop whose main wait fails with `LIBUSB_ERROR_IO`. -/
def pass_io_error : PollIter :=
  { main := quiet_events (-1),
    cancel := fun _ => (0, quiet_events 0),
    drain := quiet_events 0 }

/-- A pass of the poll loop in which transfer 0 completes with status no
device during the main wait; cancelling it then returns
`LIBUSB_ERROR_NOT_FOUND`, cancelling any other transfer is accepted. -/
def pass_device_lost : PollIter :=
  { main := { r := 0, async_cancel := false,
              completions := [{ idx := 0, status := LIBUSB_TRANSFER_NO_DEVICE,
                                actual_length := 0, data := [], calls_cancel := false }] },
    cancel := fun i => if i = 0 then (-5, quiet_events 0) else (0, quiet_events 0),
    drain := quiet_events 0 }

/-- A heap-only transport on which every allocation and submission succeeds,
with the given passes of the poll loop. -/
def heap_transport (iters : List PollIter) : Transport :=
  { zerocopy := none, malloc_ok := fun _ => true, submit := fun _ => 0, iters := iters }

/-! ## Device catalog and tables (libfx2adc.c, lines 81-106, 144-151, 202-272) -/

def vdivs : List (Nat × Nat) :=
  [(1, 1), (500, 1000), (250, 1000), (100, 1000)]

def vdivs_pso2020 : List (Nat × Nat) :=
  [(10, 1), (5, 1), (2, 1), (1, 1), (500, 1000), (200, 1000), (100, 1000), (50, 1000)]

def vdivs_instrustar : List (Nat × Nat) :=
  [(128, 100), (705, 1000), (288, 1000), (140, 1000), (576, 10000), (176, 10000)]

def samplerates : List Nat :=
  [48000000, 30000000, 24000000, 16000000, 8000000, 4000000, 1000000, 500000, 200000,
   100000]

def samplerate_regs : List Nat := [48, 30, 24, 16, 8, 4, 1, 50, 20, 10]

def vdiv_reg : List Nat := [1, 2, 5, 10, 11, 12, 13, 14]

def VDIV_CH1_REG : Nat := 0xe0
def VDIV_CH2_REG : Nat := 0xe1
def SAMPLERATE_REG : Nat := 0xe2
def CHANNELS_REG : Nat := 0xe4
def COUPLING_REG : Nat := 0xe5
def USE_EXTERNAL_CLK : Nat := 0xe7

/-- The `ALL_ZERO` element that ends the array `dev_profiles`: every number
is 0, every pointer `NULL` (the strings are empty, the table has no entry). -/
def all_zero_profile : fx2adc_devinfo_t :=
  { orig_vid := 0, orig_pid := 0, fw_vid := 0, fw_pid := 0, fw_prod_ver := 0,
    vendor := "", model := "", firmware := "", has_coupling := false, vdivs := [],
    ch1_bitreversed := false }

/-- The array `dev_profiles`: the nine device profiles followed by the
`ALL_ZERO` element, ten elements in all. -/
def dev_profiles : List fx2adc_devinfo_t :=
  [ { orig_vid := 0x04b4, orig_pid := 0x6022, fw_vid := 0x1d50, fw_pid := 0x608e,
      fw_prod_ver := 0x0001, vendor := "Hantek", model := "6022BE",
      firmware := "fx2lafw-hantek-6022be.fw", has_coupling := false, vdivs := vdivs,
      ch1_bitreversed := false },
    { orig_vid := 0x04b5, orig_pid := 0x6022, fw_vid := 0x1d50, fw_pid := 0x608e,
      fw_prod_ver := 0x0001, vendor := "Hantek", model := "6022BE",
      firmware := "fx2lafw-hantek-6022be.fw", has_coupling := false, vdivs := vdivs,
      ch1_bitreversed := false },
    { orig_vid := 0x04b4, orig_pid := 0x2020, fw_vid := 0x1d50, fw_pid := 0x608e,
      fw_prod_ver := 0x0001, vendor := "Voltcraft", model := "DSO2020",
      firmware := "fx2lafw-hantek-6022be.fw", has_coupling := false, vdivs := vdivs,
      ch1_bitreversed := false },
    { orig_vid := 0x8102, orig_pid := 0x8102, fw_vid := 0x1d50, fw_pid := 0x608e,
      fw_prod_ver := 0x0002, vendor := "Sainsmart", model := "DDS120",
      firmware := "fx2lafw-sainsmart-dds120.fw", has_coupling := true, vdivs := vdivs,
      ch1_bitreversed := false },
    { orig_vid := 0x04b4, orig_pid := 0x602a, fw_vid := 0x1d50, fw_pid := 0x608e,
      fw_prod_ver := 0x0003, vendor := "Hantek", model := "6022BL",
      firmware := "fx2lafw-hantek-6022bl.fw", has_coupling := false, vdivs := vdivs,
      ch1_bitreversed := false },
    { orig_vid := 0x04b5, orig_pid := 0x602a, fw_vid := 0x1d50, fw_pid := 0x608e,
      fw_prod_ver := 0x0003, vendor := "Hantek", model := "6022BL",
      firmware := "fx2lafw-hantek-6022bl.fw", has_coupling := false, vdivs := vdivs,
      ch1_bitreversed := false },
    { orig_vid := 0xd4a2, orig_pid := 0x5660, fw_vid := 0x1d50, fw_pid := 0x608e,
      fw_prod_ver := 0x0004, vendor := "YiXingDianZi", model := "MDSO",
      firmware := "fx2lafw-yixingdianzi-mdso.fw", has_coupling := false, vdivs := vdivs,
      ch1_bitreversed := false },
    { orig_vid := 0xd4a2, orig_pid := 0x5661, fw_vid := 0x1d50, fw_pid := 0x608e,
      fw_prod_ver := 0x0005, vendor := "Instrustar", model := "ISDS205B",
      firmware := "fx2lafw-instrustar-isds205b.fw", has_coupling := true,
      vdivs := vdivs_instrustar, ch1_bitreversed := false },
    { orig_vid := 0x04b4, orig_pid := 0x6023, fw_vid := 0x1d50, fw_pid := 0x608e,
      fw_prod_ver := 0x0006, vendor := "Hantek", model := "PSO2020",
      firmware := "fx2lafw-hantek-pso2020.fw", has_coupling := true,
      vdivs := vdivs_pso2020, ch1_bitreversed := true },
    all_zero_profile ]

/-- The nine device profiles of the catalog: `dev_profiles` without the
`ALL_ZERO` element at its end. -/
def catalog : List fx2adc_devinfo_t := dev_profiles.take 9

/-- The entry of `dev_profiles` at index `k` (the `ALL_ZERO` element outside
the array bounds). -/
def profile (k : Nat) : fx2adc_devinfo_t := dev_profiles.getD k all_zero_profile

/-- The query equals the pre-firmware pair of the entry. -/
def pre_match (p : fx2adc_devinfo_t) (vid pid : Nat) : Bool :=
  p.orig_vid = vid ∧ p.orig_pid = pid

/-- The query equals the post-firmware triple of the entry. -/
def post_match (p : fx2adc_devinfo_t) (vid pid prod_ver : Nat) : Bool :=
  p.fw_vid = vid ∧ p.fw_pid = pid ∧ p.fw_prod_ver = prod_ver

/-! ## Catalog matching (libfx2adc.c, lines 492-517) -/

/-- The loop of `find_known_device` over the entries from index `i` on: the
index of the entry whose address is returned together with the value stored
through `configured` when that pointer is not `NULL`; `none` when `NULL` is
returned and nothing is stored. -/
def find_known_device_from (vid pid prod_ver : Nat) :
    List fx2adc_devinfo_t → Nat → Option (Nat × Bool)
  | [], _ => none
  | p :: ps, i =>
    if p.orig_vid = vid ∧ p.orig_pid = pid then some (i, false)
    else if p.fw_vid = vid ∧ p.fw_pid = pid ∧ p.fw_prod_ver = prod_ver then some (i, true)
    else find_known_device_from vid pid prod_ver ps (i + 1)

/-- `find_known_device`: the loop runs over
`sizeof(dev_profiles)/sizeof(fx2adc_devinfo_t)` elements, the whole array. -/
def find_known_device (vid pid prod_ver : Nat) : Option (Nat × Bool) :=
  find_known_device_from vid pid prod_ver dev_profiles 0

/-! ## Closest-match setters (libfx2adc.c, lines 280-293 and 400-490) -/

/-- The value of an integer as `int32_t` in two's complement: conversions to
`int32_t` and, as compiled, signed arithmetic wrap modulo 2^32. -/
def wrap32 (v : Int) : Int := (v + 2147483648) % 4294967296 - 2147483648

/-- The function `abs` on `int`; `abs(INT_MIN)` wraps to `INT_MIN`. -/
def abs32 (v : Int) : Int := wrap32 |v|

/-- `fx2adc_write_control` given the return code `r` of the control
transfer: `r` when it is not positive, 0 otherwise. -/
def fx2adc_write_control (r : Int) : Int := if r ≤ 0 then r else 0

/-- The locals of the search loops: `millivolts`, `closest_result`,
`closest_index` (a `uint8_t`) and `last_error`. -/
structure ClosestSearch where
  millivolts : Int
  closest_result : Int
  closest_index : Nat
  last_error : Int
  deriving DecidableEq, Repr

/-- The value `(vdivs[i][0] * 1000) / vdivs[i][1]`, computed in `uint64_t`
and stored in an `int`. -/
def vdiv_millivolts (e : Nat × Nat) : Int :=
  wrap32 (((e.1 * 1000) % 2 ^ 64 / e.2 : Nat) : Int)

/-- The loop of `fx2adc_set_vdiv` (lines 407-417) over the entries from
index `i` on. -/
def vdiv_search (vdiv : Int) : List (Nat × Nat) → Nat → ClosestSearch → ClosestSearch
  | [], _, st => st
  | e :: rest, i, st =>
    let millivolts := vdiv_millivolts e
    let error := wrap32 (millivolts - vdiv)
    if abs32 error < st.last_error then
      vdiv_search vdiv rest (i + 1)
        { millivolts := millivolts, closest_result := millivolts,
          closest_index := i % 256, last_error := abs32 error }
    else
      vdiv_search vdiv rest (i + 1) { st with millivolts := millivolts }

/-- `fx2adc_set_vdiv` on a non-`NULL` session, `ctrl` being the return code
of the control transfer: the return code, the session and the control write. -/
def fx2adc_set_vdiv (ctrl : Int) (dev : fx2adc_dev) (channel vdiv : Int) :
    Int × fx2adc_dev × List UsbCall :=
  let cmd := if channel = 2 then VDIV_CH2_REG else VDIV_CH1_REG
  let st := vdiv_search vdiv dev.devinfo.vdivs 0
    { millivolts := 0, closest_result := 0, closest_index := 0, last_error := INT32_MAX }
  (fx2adc_write_control ctrl,
    { dev with vdiv := (st.millivolts % 4294967296).toNat },
    [UsbCall.control_write cmd (vdiv_reg.getD st.closest_index 0)])

/-- `fx2adc_get_vdiv` on a non-`NULL` session. -/
def fx2adc_get_vdiv (dev : fx2adc_dev) : Int := wrap32 dev.vdiv

/-- The loop of `fx2adc_set_sample_rate` (lines 462-469) over the table
entries from index `i` on: `closest_index` and `last_error`. The difference
of the `int32_t` table value and the `uint32_t` request is taken modulo 2^32
and stored in an `int32_t`. -/
def rate_search (samp_rate : Nat) : List Nat → Nat → Nat × Int → Nat × Int
  | [], _, st => st
  | v :: rest, i, st =>
    let error := wrap32 (wrap32 v - samp_rate)
    if abs32 error < st.2 then rate_search samp_rate rest (i + 1) (i % 256, abs32 error)
    else rate_search samp_rate rest (i + 1) st

/-- What `fx2adc_set_sample_rate` does: the return code, the session, the
control writes, and the configuration the clock generator is programmed with
(`none` when it is not programmed; the inner `none` when `si5351_Calc`
overflows). -/
structure SetRateResult where
  r : Int
  dev : fx2adc_dev
  log : List UsbCall
  clock : Option (Option (si5351PLLConfig_t × si5351OutputConfig_t))

/-- `fx2adc_set_sample_rate` on a non-`NULL` session. `ctrl req value` is the
return code of the control transfer for that request, `si5351Correction` the
global the clock generator was initialised with. -/
def fx2adc_set_sample_rate (ctrl : Nat → Nat → Int) (si5351Correction : Int)
    (dev : fx2adc_dev) (samp_rate : Nat) (ext_clock : Bool) : SetRateResult :=
  if ext_clock then
    { r := fx2adc_write_control (ctrl SAMPLERATE_REG 0),
      dev := { dev with rate := samp_rate },
      log := [UsbCall.control_write USE_EXTERNAL_CLK 1, UsbCall.control_write SAMPLERATE_REG 0],
      clock := if dev.clockgen_present then
          some (si5351_Calc (wrap32 samp_rate) si5351Correction)
        else none }
  else
    let st := rate_search samp_rate samplerates 0 (0, INT32_MAX)
    { r := fx2adc_write_control (ctrl SAMPLERATE_REG (samplerate_regs.getD st.1 0)),
      dev := { dev with rate := samplerates.getD st.1 0 % 4294967296 },
      log := [UsbCall.control_write SAMPLERATE_REG (samplerate_regs.getD st.1 0)],
      clock := none }

/-- `fx2adc_get_sample_rate` on a non-`NULL` session. -/
def fx2adc_get_sample_rate (dev : fx2adc_dev) : Nat := dev.rate

/-- Lines 309-310 of `si5351_Calc`: the request clamped to the supported
range. -/
def si5351_clamp (Fclk : Int) : Int :=
  if Fclk < 8000 then 8000 else if Fclk > 160000000 then 160000000 else Fclk

/-! ## Hardware defaults (libfx2adc.c, lines 655-679) -/

/-- Line 658: `vdiv_index = vdiv_reg[vdivs_size - 1]`; `none` when the index
`vdivs_size - 1` (a `uint32_t`) lies outside `vdiv_reg`. -/
def init_vdiv_index (info : fx2adc_devinfo_t) : Option Nat :=
  vdiv_reg.get? ((info.vdivs.length + 4294967296 - 1) % 4294967296)

/-- `fx2adc_init_hardware`, `si5351_init` being the return code of
`si5351_Init`: the session and the control writes, or `none` when an array is
read outside its bounds. -/
def fx2adc_init_hardware (si5351_init : Int) (dev : fx2adc_dev) :
    Option (fx2adc_dev × List UsbCall) := do
  let vdiv_index ← init_vdiv_index dev.devinfo
  let code ← vdiv_reg.get? ((dev.devinfo.vdivs.length + 4294967296 - 1) % 4294967296)
  let e ← dev.devinfo.vdivs.get? vdiv_index
  let dev1 := { dev with vdiv := (e.1 * 1000) % 2 ^ 64 / e.2 % 4294967296 }
  let log := [UsbCall.control_write CHANNELS_REG 1, UsbCall.control_write VDIV_CH1_REG code]
    ++ (if dev.devinfo.has_coupling then [UsbCall.control_write COUPLING_REG 1] else [])
  pure ({ dev1 with clockgen_present := if si5351_init < 0 then false else true }, log)

/-! ## Enumeration in `fx2adc_open` (libfx2adc.c, lines 689-811) -/

/-- The identity a device descriptor reports. -/
structure libusb_device_descriptor where
  idVendor : Nat
  idProduct : Nat
  bcdDevice : Nat
  deriving DecidableEq, Repr

/-- The locals of `fx2adc_open` that live across passes of the `do` loop:
`device` (the position in the bus list it points at, `none` for `NULL`),
`devinfo` (an index into `dev_profiles`), `device_count`,
`wait_for_reenumeration` and `is_configured`. -/
structure OpenState where
  device : Option Nat
  devinfo : Option Nat
  device_count : Nat
  wait_for_reenumeration : Int
  is_configured : Bool
  deriving DecidableEq, Repr

/-- What a run of the loop does that can be observed: the selection at the
end of each pass, the sleeps and the firmware uploads. -/
inductive OpenEvent where
  | pass (device : Option Nat) (devinfo : Option Nat)
  | sleep
  | upload (devinfo : Nat)
  deriving DecidableEq, Repr

/-- How the loop ends: `goto err` with the code `r`, a `NULL` pointer
dereferenced, or the device at a position of the last bus list opened and
claimed. -/
inductive OpenOutcome where
  | error (r : Int)
  | null_deref
  | opened (device : Nat) (devinfo : Option Nat)
  deriving DecidableEq, Repr

/-- The answers of the environment to one call of `fx2adc_open`: the bus list
of each pass, the return codes of `ezusb_upload_firmware`, `libusb_open`,
`libusb_kernel_driver_active` and `libusb_claim_interface`, and the return
code of `libusb_detach_kernel_driver` (`none` when detaching is not compiled
in). -/
structure OpenEnv where
  buses : List (List libusb_device_descriptor)
  upload : Int
  usb_open : Int
  kernel_driver_active : Int
  detach : Option Int
  claim : Int

/-- The `for` loop of lines 718-733 over the devices from position `i` on. -/
def scan_bus (index : Nat) : List libusb_device_descriptor → Nat → OpenState → OpenState
  | [], _, st => st
  | dd :: rest, i, st =>
    let found := find_known_device dd.idVendor dd.idProduct dd.bcdDevice
    let st1 : OpenState :=
      { st with
        device := some i
        devinfo := found.map Prod.fst
        is_configured := match found with
          | some (_, c) => c
          | none => st.is_configured
        device_count :=
          if found.isSome then (st.device_count + 1) % 4294967296 else st.device_count }
    if index = (st1.device_count + 4294967296 - 1) % 4294967296 then st1
    else scan_bus index rest (i + 1) { st1 with device := none }

/-- How one pass of the `do` loop ends: the loop goes on (`continue` with
`wait_for_reenumeration` not 0) or it is left. -/
inductive PassResult where
  | again (st : OpenState) (log : List OpenEvent)
  | done (out : OpenOutcome) (log : List OpenEvent)

/-- The part of a pass after the `for` loop (lines 735-811), `st1` being the
locals the `for` loop left. -/
def open_after_scan (env : OpenEnv) (st1 : OpenState) (log1 : List OpenEvent) : PassResult :=
  match st1.device with
  | none =>
    if st1.wait_for_reenumeration ≠ 0 ∧ st1.wait_for_reenumeration < 5 then
      PassResult.again st1 (log1 ++ [OpenEvent.sleep])
    else PassResult.done (OpenOutcome.error (-1)) log1
  | some d =>
    if st1.is_configured = false then
      let st2 : OpenState := { st1 with device_count := 0 }
      if st2.wait_for_reenumeration > 5 then PassResult.done (OpenOutcome.error (-1)) log1
      else if st2.wait_for_reenumeration ≠ 0 then
        PassResult.again
          { st2 with wait_for_reenumeration := wrap32 (st2.wait_for_reenumeration + 1) }
          (log1 ++ [OpenEvent.sleep])
      else
        match st2.devinfo with
        | none => PassResult.done OpenOutcome.null_deref log1
        | some k =>
          if env.upload < 0 then
            PassResult.done (OpenOutcome.error env.upload) (log1 ++ [OpenEvent.upload k])
          else
            PassResult.again
              { st2 with wait_for_reenumeration := wrap32 (st2.wait_for_reenumeration + 1) }
              (log1 ++ [OpenEvent.upload k])
    else
      if env.usb_open < 0 then PassResult.done (OpenOutcome.error env.usb_open) log1
      else if st1.devinfo = none then PassResult.done OpenOutcome.null_deref log1
      else if env.kernel_driver_active = 1 ∧ (∃ r, env.detach = some r ∧ r ≠ 0) then
        PassResult.done (OpenOutcome.error env.usb_open) log1
      else if env.claim < 0 then PassResult.done (OpenOutcome.error env.claim) log1
      else PassResult.done (OpenOutcome.opened d st1.devinfo) log1

/-- One pass of the `do` loop of lines 710-811 on the bus list `bus`. -/
def open_pass (env : OpenEnv) (index : Nat) (bus : List libusb_device_descriptor)
    (st : OpenState) (log : List OpenEvent) : PassResult :=
  open_after_scan env (scan_bus index bus 0 st)
    (log ++ [OpenEvent.pass (scan_bus index bus 0 st).device (scan_bus index bus 0 st).devinfo])

/-- The `do` loop of lines 710-811 over the scripted bus lists: how it ends
and what it did; `none` when the script ends while the loop is running. -/
def open_loop (env : OpenEnv) (index : Nat) :
    List (List libusb_device_descriptor) → OpenState → List OpenEvent →
      Option (OpenOutcome × List OpenEvent)
  | [], _, _ => none
  | bus :: rest, st, log =>
    match open_pass env index bus st log with
    | PassResult.again st1 log1 => open_loop env index rest st1 log1
    | PassResult.done out log1 => some (out, log1)

/-- The loop of `fx2adc_open(index)` from its initial locals. -/
def fx2adc_open_loop (env : OpenEnv) (index : Nat) : Option (OpenOutcome × List OpenEvent) :=
  open_loop env index env.buses
    { device := none, devinfo := none, device_count := 0, wait_for_reenumeration := 0,
      is_configured := false } []

/-- The positions of a bus list whose device matches the catalog, in order. -/
def matching_positions (bus : List libusb_device_descriptor) : List Nat :=
  (List.range bus.length).filter (fun i =>
    match bus.get? i with
    | some dd => (find_known_device dd.idVendor dd.idProduct dd.bcdDevice).isSome
    | none => false)

/-- A first-generation Hantek 6022BE before the firmware upload. -/
def hantek_unconfigured : libusb_device_descriptor :=
  { idVendor := 0x04b4, idProduct := 0x6022, bcdDevice := 0 }

/-- A Hantek 6022BE after the firmware upload. -/
def hantek_configured : libusb_device_descriptor :=
  { idVendor := 0x1d50, idProduct := 0x608e, bcdDevice := 1 }

/-- A device that is not in the catalog (a root hub). -/
def root_hub : libusb_device_descriptor :=
  { idVendor := 0x1d6b, idProduct := 0x0002, bcdDevice := 0 }

/-- An environment in which every call succeeds, with the given bus lists. -/
def open_env (buses : List (List libusb_device_descriptor)) : OpenEnv :=
  { buses := buses, upload := 0, usb_open := 0, kernel_driver_active := 0, detach := none,
    claim := 0 }

/-! ## Firmware upload (ezusb.c, lines 32-204) -/

def FW_CHUNKSIZE : Nat := 4 * 1024

/-- A firmware file as the file system presents it: the size `stat` reports,
whether `fopen` succeeds, whether `fread` ends with an error, and the bytes
of the buffer after `fread`. -/
structure FirmwareFile where
  st_size : Nat
  opens : Bool
  read_error : Bool
  data : List Nat
  deriving DecidableEq, Repr

/-- A vendor control write of request 0xa0: the 16-bit value field and the
bytes of the data stage. -/
structure ControlWrite where
  wValue : Nat
  data : List Nat
  deriving DecidableEq, Repr

/-- `firmware_file_load`: the buffer and the length stored through `size`,
`none` for `NULL`. The file is `none` when no directory of the search list
holds it; `malloc` is taken to succeed. -/
def firmware_file_load (file : Option FirmwareFile) (max_size : Nat) :
    Option (List Nat × Nat) :=
  match file with
  | none => none
  | some f =>
    if f.st_size > max_size then none
    else if f.opens = false then none
    else if f.read_error then none
    else some (f.data, f.st_size)

/-- The loop of `ezusb_install_firmware` (lines 139-154) with at most `fuel`
tests of its condition: `xfer k` is the return code of the control transfer
for the write number `k`, the value field holds `offset` as `uint16_t`;
`none` when the fuel runs out. -/
def install_loop (xfer : Nat → Int) (firmware : List Nat) (length : Nat) :
    Nat → Nat → List ControlWrite → Option (Int × List ControlWrite)
  | 0, _, _ => none
  | fuel + 1, offset, log =>
    if offset < length then
      let chunksize := min (length - offset) FW_CHUNKSIZE
      let log1 := log ++
        [{ wValue := offset % 65536, data := (firmware.drop offset).take chunksize }]
      if xfer log.length < 0 then some (-1, log1)
      else install_loop xfer firmware length fuel (offset + chunksize) log1
    else some (0, log)

/-- `ezusb_install_firmware`: the return code and the control writes issued.
The loop is given `length + 1` tests of its condition. -/
def ezusb_install_firmware (xfer : Nat → Int) (file : Option FirmwareFile) :
    Option (Int × List ControlWrite) :=
  match firmware_file_load file (2 ^ 16) with
  | none => some (-1, [])
  | some (firmware, length) => install_loop xfer firmware length (length + 1) 0 []

/-- The answers of the environment to `ezusb_upload_firmware`; `apple` says
whether the build is for the platform on which the kernel driver is not
detached. -/
structure UploadEnv where
  usb_open : Int
  apple : Bool
  kernel_driver_active : Int
  detach : Int
  set_configuration : Int
  reset_set : Int
  reset_clear : Int
  xfer : Nat → Int
  file : Option FirmwareFile

/-- `ezusb_upload_firmware`: the return code and the control writes issued
(the reset writes carry the value 0xe600). -/
def ezusb_upload_firmware (env : UploadEnv) : Option (Int × List ControlWrite) :=
  if env.usb_open < 0 then some (-1, [])
  else if env.apple = false ∧ env.kernel_driver_active = 1 ∧ env.detach < 0 then some (-1, [])
  else if env.set_configuration < 0 then some (-1, [])
  else
    let log1 : List ControlWrite := [{ wValue := 0xe600, data := [1] }]
    if env.reset_set < 0 then some (-1, log1)
    else
      match ezusb_install_firmware env.xfer env.file with
      | none => none
      | some (r, log2) =>
        if r < 0 then some (-1, log1 ++ log2)
        else if env.reset_clear < 0 then
          some (-1, log1 ++ log2 ++ [{ wValue := 0xe600, data := [0] }])
        else some (0, log1 ++ log2 ++ [{ wValue := 0xe600, data := [0] }])

/-- The chunk number `k` of an image: offset `4096 * k` in the value field
and the at most 4096 bytes from that offset on. -/
def firmware_chunk (firmware : List Nat) (k : Nat) : ControlWrite :=
  { wValue := 4096 * k, data := (firmware.drop (4096 * k)).take 4096 }

/-- The number of chunks of an image of `length` bytes: `length / 4096`
rounded up. -/
def chunk_count (length : Nat) : Nat := (length + 4095) / 4096

/-- A readable firmware file holding the given image. -/
def firmware_file (image : List Nat) : FirmwareFile :=
  { st_size := image.length, opens := true, read_error := false, data := image }

/-! ## Enumeration helpers (libfx2adc.c, lines 359-398 and 519-653) -/

/-- A device on the bus as the enumeration helpers see it: its descriptor,
the return code of `libusb_open`, the return code of
`libusb_get_device_descriptor` inside `fx2adc_get_usb_strings`, and its serial
string (`none` when the string descriptor cannot be read). -/
structure bus_device where
  dd : libusb_device_descriptor
  open_r : Int
  descriptor_r : Int
  serial : Option String
  deriving DecidableEq, Repr

/-- Whether `find_known_device` returns an entry for the device. -/
def is_known (dd : libusb_device_descriptor) : Bool :=
  (find_known_device dd.idVendor dd.idProduct dd.bcdDevice).isSome

/-- `fx2adc_get_device_count` on a bus list (`libusb_init` succeeds). -/
def fx2adc_get_device_count (bus : List bus_device) : Nat :=
  bus.foldl (fun device_count d =>
    if is_known d.dd then (device_count + 1) % 4294967296 else device_count) 0

/-- The loop of `fx2adc_get_device_name` (lines 564-575): the locals `device`
(an index into `dev_profiles`) and `device_count` after the loop. -/
def device_name_loop (index : Nat) :
    List libusb_device_descriptor → Option Nat × Nat → Option Nat × Nat
  | [], st => st
  | dd :: rest, st =>
    match find_known_device dd.idVendor dd.idProduct dd.bcdDevice with
    | some (k, _) =>
      if index = ((st.2 + 1) % 4294967296 + 4294967296 - 1) % 4294967296 then
        (some k, (st.2 + 1) % 4294967296)
      else device_name_loop index rest (some k, (st.2 + 1) % 4294967296)
    | none => device_name_loop index rest (none, st.2)

/-- `fx2adc_get_device_name` on a bus list (`libusb_init` succeeds). -/
def fx2adc_get_device_name (bus : List libusb_device_descriptor) (index : Nat) : String :=
  match (device_name_loop index bus (none, 0)).1 with
  | some k => (profile k).model
  | none => ""

/-- `fx2adc_get_usb_strings` with only the serial buffer requested, on a
handle that is open: the return code and the buffer, which is zeroed and then
filled by the string descriptor when that can be read. -/
def fx2adc_get_usb_strings_serial (d : bus_device) (str : String) : Int × String :=
  if d.descriptor_r < 0 then (-1, str) else (0, d.serial.getD "")

/-- The loop of `fx2adc_get_device_usb_strings` (lines 605-625) with only
the serial buffer requested: the return code and the buffer. -/
def device_usb_strings_loop (index : Nat) :
    List bus_device → Nat → Int × String → Int × String
  | [], _, st => st
  | d :: rest, device_count, st =>
    if is_known d.dd then
      if index = ((device_count + 1) % 4294967296 + 4294967296 - 1) % 4294967296 then
        if d.open_r = 0 then fx2adc_get_usb_strings_serial d st.2 else (d.open_r, st.2)
      else device_usb_strings_loop index rest ((device_count + 1) % 4294967296) st
    else device_usb_strings_loop index rest device_count st

/-- `fx2adc_get_device_usb_strings(index, NULL, NULL, str)` on a bus list
(`libusb_init` succeeds and returns 0). -/
def fx2adc_get_device_usb_strings (bus : List bus_device) (index : Nat) (str : String) :
    Int × String :=
  device_usb_strings_loop index bus 0 (0, str)

/-- The loop of `fx2adc_get_index_by_serial` (lines 646-650) from index `i`
on, `n` indices left. -/
def index_by_serial_loop (bus : List bus_device) (serial : String) :
    Nat → Nat → String → Int
  | 0, _, _ => -3
  | n + 1, i, str =>
    let res := fx2adc_get_device_usb_strings bus i str
    if res.1 = 0 ∧ serial = res.2 then (i : Int)
    else index_by_serial_loop bus serial n (i + 1) res.2

/-- `fx2adc_get_index_by_serial` on a bus list that stays the same during the
call; `serial` is `none` for `NULL`, `str` is the initial content of the
local buffer. The count is stored in the `int` local `cnt`; the loop runs
while `i < cnt`. -/
def fx2adc_get_index_by_serial (bus : List bus_device) (serial : Option String)
    (str : String) : Int :=
  match serial with
  | none => -1
  | some s =>
    let cnt := wrap32 (fx2adc_get_device_count bus)
    if cnt = 0 then -2
    else index_by_serial_loop bus s cnt.toNat 0 str

/-- The devices of a bus list for which `find_known_device` returns an
entry, in bus order. -/
def known_devices (bus : List bus_device) : List bus_device :=
  bus.filter (fun d => is_known d.dd)

/-- The device can be opened, its descriptor can be read, and the serial
buffer (empty when the string descriptor cannot be read) equals `serial`. -/
def serial_matches (serial : String) (d : bus_device) : Bool :=
  d.open_r = 0 ∧ 0 ≤ d.descriptor_r ∧ d.serial.getD "" = serial

/-- A configured 6022BE whose serial string descriptor cannot be read. -/
def hantek_without_serial : bus_device :=
  { dd := hantek_configured, open_r := 0, descriptor_r := 0, serial := none }

/-- A configured 6022BE with the given serial string. -/
def hantek_with_serial (s : String) : bus_device :=
  { dd := hantek_configured, open_r := 0, descriptor_r := 0, serial := some s }

/-! ## Si5351 register programming (si5351.c, lines 58-71 and 209-303) -/

/-- The calculator as the specification words it, in unbounded integers;
`div` and `mod` are the truncating division and remainder of C, `>> 20` is
the floor of the division by 2^20, and the result is `none` where a divisor
is zero. -/
def si5351_Calc_reference (Fclk k : Int) :
    Option (si5351PLLConfig_t × si5351OutputConfig_t) :=
  let F0 := max 8000 (min Fclk 160000000)
  let F1 := if F0 < 1000000 then 64 * F0 else F0
  let R := if F0 < 1000000 then SI5351_R_DIV_64 else SI5351_R_DIV_1
  let adj := F1 - Int.tdiv (Int.tdiv F1 1000000 * k) 100
  if adj < 81000000 then
    let t := adj / 1048576 + 1
    if adj = 0 ∨ t = 0 then none
    else
      some ({ mult := 36, num := 0, denom := 1 },
            { allowIntegerMode := 1, div := Int.tdiv 900000000 adj,
              num := Int.tdiv (Int.tmod 900000000 adj) t, denom := Int.tdiv adj t, rdiv := R })
  else
    let div : Int := if adj ≥ 150000000 then 4 else if adj ≥ 100000000 then 6 else 8
    some ({ mult := Int.tdiv (div * adj) 25000000,
            num := Int.tdiv (Int.tmod (div * adj) 25000000) 24, denom := 1041666 },
          { allowIntegerMode := 1, div := div, num := 0, denom := 1, rdiv := R })

/-- The product `(Fclk / 1000000) * si5351Correction` of line 324 for the
request `Fclk`: the one operation of `si5351_Calc` whose result can leave the
`int32_t` range. -/
def correction_product (Fclk k : Int) : Int :=
  Int.tdiv (adjusted_target (max 8000 (min Fclk 160000000))) 1000000 * k

/-- The PLL ratio `N = mult + num/denom`. -/
def pll_ratio (pll : si5351PLLConfig_t) : ℚ :=
  (pll.mult : ℚ) + (pll.num : ℚ) / (pll.denom : ℚ)

/-- The output divider ratio `M = div + num/denom`. -/
def out_ratio (out : si5351OutputConfig_t) : ℚ :=
  (out.div : ℚ) + (out.num : ℚ) / (out.denom : ℚ)

/-- Modelled from the spec: the PLL selector `si5351PLL_t` of `si5351.h`, a
header absent from the sources, with the two PLLs the code names. -/
inductive si5351PLL_t where
  | SI5351_PLL_A
  | SI5351_PLL_B
  deriving DecidableEq, Repr

/-- The 32-bit pattern of an `int32_t` value. -/
def u32 (v : Int) : Nat := (v % 4294967296).toNat

/-- The nine bytes `si5351_writeBulk` sends. The parameters are taken as
32-bit patterns; every bit selected lies below bit 24, where the arithmetic
shift of C and the shift of the pattern agree. `rdiv` is the numeric value
of the R-divider selector. -/
def si5351_writeBulk (baseaddr : Nat) (P1 P2 P3 : Int) (divBy4 rdiv : Nat) : List Nat :=
  [ baseaddr % 256,
    (u32 P3 >>> 8) &&& 0xff,
    u32 P3 &&& 0xff,
    (((u32 P1 >>> 16) &&& 0x3) ||| ((divBy4 &&& 0x3) <<< 2) ||| ((rdiv &&& 0x7) <<< 4)) % 256,
    (u32 P1 >>> 8) &&& 0xff,
    u32 P1 &&& 0xff,
    (((u32 P3 >>> 12) &&& 0xf0) ||| ((u32 P2 >>> 16) &&& 0xf)) % 256,
    (u32 P2 >>> 8) &&& 0xff,
    u32 P2 &&& 0xff ]

/-- Lines 217-220 of `si5351_SetupPLL`: the parameters `P1`, `P2`, `P3`. -/
def si5351_SetupPLL_params (conf : si5351PLLConfig_t) : Option (Int × Int × Int) := do
  let a ← i32 (128 * conf.mult)
  let b ← i32 (128 * conf.num)
  let q ← i32_div b conf.denom
  let s ← i32 (a + q)
  let P1 ← i32 (s - 512)
  let P2 ← i32_mod b conf.denom
  pure (P1, P2, conf.denom)

/-- `si5351_SetupPLL`: the register writes sent over the bridge, `none` when
the arithmetic overflows or divides by zero. -/
def si5351_SetupPLL (pll : si5351PLL_t) (conf : si5351PLLConfig_t) :
    Option (List (List Nat)) := do
  let P ← si5351_SetupPLL_params conf
  let baseaddr := if pll = si5351PLL_t.SI5351_PLL_A then 26 else 34
  pure [si5351_writeBulk baseaddr P.1 P.2.1 P.2.2 0 0, [177, 0xa0]]

/-- Lines 253-264 of `si5351_SetupOutput`: the parameters `P1`, `P2`, `P3`
and `divBy4`. -/
def si5351_SetupOutput_params (conf : si5351OutputConfig_t) :
    Option (Int × Int × Int × Nat) :=
  if conf.div = 4 then some (0, 0, 1, 0x3)
  else do
    let a ← i32 (128 * conf.div)
    let b ← i32 (128 * conf.num)
    let q ← i32_div b conf.denom
    let s ← i32 (a + q)
    let P1 ← i32 (s - 512)
    let P2 ← i32_mod b conf.denom
    pure (P1, P2, conf.denom, 0)

/-- `si5351_SetupOutput`: the return code and the register writes sent over
the bridge. `rdiv_code` gives the numeric value of the R-divider selector and
`driveStrength` that of the drive strength (both declared in the absent
header). -/
def si5351_SetupOutput (rdiv_code : si5351RDiv_t → Nat) (output : Nat) (pllSource : si5351PLL_t)
    (driveStrength : Nat) (conf : si5351OutputConfig_t) (phaseOffset : Nat) :
    Option (Int × List (List Nat)) :=
  if output > 2 then some (1, [])
  else if conf.allowIntegerMode = 0 ∧ (conf.div < 8 ∨ (conf.div = 8 ∧ conf.num = 0)) then
    some (2, [])
  else do
    let P ← si5351_SetupOutput_params conf
    let baseaddr := if output = 0 then 42 else if output = 1 then 50 else 58
    let phaseOffsetRegister := if output = 0 then 165 else if output = 1 then 166 else 167
    let clkControlRegister := if output = 0 then 16 else if output = 1 then 17 else 18
    let c0 := 0x0c ||| driveStrength
    let c1 := if pllSource = si5351PLL_t.SI5351_PLL_B then c0 ||| (1 <<< 5) else c0
    let c2 := if conf.allowIntegerMode ≠ 0 ∧ (conf.num = 0 ∨ conf.div = 4) then c1 ||| (1 <<< 6)
      else c1
    pure (0, [[clkControlRegister, c2 % 256],
      si5351_writeBulk baseaddr P.1 P.2.1 P.2.2.1 P.2.2.2 (rdiv_code conf.rdiv),
      [phaseOffsetRegister, phaseOffset &&& 0x7f]])

/-- The parameters read back from the nine bytes by the register layout:
`P1` from bits 1-0 of byte 3 and bytes 4, 5; `P2` from the low nibble of byte
6 and bytes 7, 8; `P3` from the high nibble of byte 6 and bytes 1, 2;
`divBy4` from bits 3-2 of byte 3. -/
def decode_params (buf : List Nat) : Nat × Nat × Nat × Nat :=
  ( (buf.getD 3 0 % 4) * 65536 + buf.getD 4 0 * 256 + buf.getD 5 0,
    (buf.getD 6 0 % 16) * 65536 + buf.getD 7 0 * 256 + buf.getD 8 0,
    (buf.getD 6 0 / 16) * 65536 + buf.getD 1 0 * 256 + buf.getD 2 0,
    buf.getD 3 0 / 4 % 4 )

end Fx2adc

/-! # Properties -/

namespace Fx2adc

open fx2adc_async_status libusb_transfer_status si5351RDiv_t

/-! ## Streaming state machine -/

/-- C1: on a session whose status is not inactive, `fx2adc_read` returns -2,
hands back the session with every field as it was, and makes no call to the
allocator or the transport (nothing is allocated, nothing is submitted),
whatever the transport and the arguments are. -/
theorem fx2adc_read_already_running (t : Transport) (dev : fx2adc_dev) (cb : Option Nat)
    (ctx buf_num buf_len : Nat) (h : dev.async_status ≠ FX2ADC_INACTIVE) :
    fx2adc_read t dev cb ctx buf_num buf_len = some (-2, dev, []) := by
  unfold fx2adc_read
  rw [if_pos h]

theorem fx2adc_read_already_running_witness :
    ({ idle_session profile_pso2020 with async_status := FX2ADC_RUNNING }).async_status
        ≠ FX2ADC_INACTIVE ∧
      fx2adc_read (heap_transport [])
        { idle_session profile_pso2020 with async_status := FX2ADC_RUNNING } (some 1) 0 4 1024
        = some (-2, { idle_session profile_pso2020 with async_status := FX2ADC_RUNNING }, []) :=
  ⟨by decide, fx2adc_read_already_running _ _ _ _ _ _ (by decide)⟩

/-- C2: `fx2adc_cancel_async` returns 0 exactly when the status is running,
and then only sets the status to canceling and the cancel flag to 1; in the
other two states it returns -2 and leaves the session as it was. A second call
in a row returns -2 and leaves the state the first call produced. -/
theorem fx2adc_cancel_async_spec (dev : fx2adc_dev) :
    ((fx2adc_cancel_async dev).1 = 0 ↔ dev.async_status = FX2ADC_RUNNING) ∧
    (dev.async_status = FX2ADC_RUNNING →
      (fx2adc_cancel_async dev).2 =
        { dev with async_status := FX2ADC_CANCELING, async_cancel := 1 }) ∧
    (dev.async_status ≠ FX2ADC_RUNNING → fx2adc_cancel_async dev = (-2, dev)) ∧
    (fx2adc_cancel_async (fx2adc_cancel_async dev).2).2 = (fx2adc_cancel_async dev).2 ∧
    (fx2adc_cancel_async (fx2adc_cancel_async dev).2).1 = -2 := by
  unfold fx2adc_cancel_async
  by_cases h : dev.async_status = FX2ADC_RUNNING
  · simp [h]
  · simp [h]

/-- C3, evaluated at two failing runs from an inactive session. First run:
one buffer of 512 bytes, a cancellation request arrives during the first wait,
the transfer is not yet reported cancelled and its cancellation is accepted,
and the next wait fails with an I/O error; `fx2adc_read` returns -1 with status
canceling and the device not marked lost. Second run: two buffers, transfer 0
completes with status no device, which marks the device lost, and the
cancellation of the pending transfer 1 is accepted; `fx2adc_read` returns 0
with status canceling. In neither run is the status inactive on return. -/
theorem fx2adc_read_returns_canceling :
    (fx2adc_read (heap_transport [pass_cancel_requested, pass_io_error])
        (idle_session profile_pso2020) (some 1) 0 1 512).map
        (fun res => (res.1, res.2.1.async_status, res.2.1.dev_lost))
      = some (-1, FX2ADC_CANCELING, 0) ∧
    (fx2adc_read (heap_transport [pass_device_lost])
        (idle_session profile_pso2020) (some 1) 0 2 512).map
        (fun res => (res.1, res.2.1.async_status, res.2.1.dev_lost))
      = some (0, FX2ADC_CANCELING, 1) := by
  decide

/-! ## Bit reversal -/

theorem bitrev_bitrev_fin : ∀ b : Fin 256, bitrev (bitrev b.val) = b.val := by
  set_option maxRecDepth 100000 in decide

theorem bitrev_testBit_fin :
    ∀ b : Fin 256, ∀ k : Fin 8, (bitrev b.val).testBit (7 - k.val) = b.val.testBit k.val := by
  set_option maxRecDepth 100000 in decide

theorem bitrev_lt (b : Nat) : bitrev b < 256 := by
  unfold bitrev
  exact Nat.mod_lt _ (by decide)

/-- C7: for each of the 256 byte values, the table implementation of `bitrev`
applied twice gives the byte back. -/
theorem bitrev_involutive (b : Nat) (h : b < 256) : bitrev (bitrev b) = b :=
  bitrev_bitrev_fin ⟨b, h⟩

theorem bitrev_involutive_witness : (0xa5 : Nat) < 256 ∧ bitrev (bitrev 0xa5) = 0xa5 :=
  ⟨by decide, bitrev_involutive 0xa5 (by decide)⟩

theorem bitrev_buffer_succ (buf : List Nat) (n : Nat) :
    bitrev_buffer buf (n + 1) =
      (bitrev_buffer buf n).set n (bitrev ((bitrev_buffer buf n).getD n 0)) := by
  simp [bitrev_buffer, List.range_succ, List.foldl_append]

theorem bitrev_buffer_length (buf : List Nat) (n : Nat) :
    (bitrev_buffer buf n).length = buf.length := by
  induction n with
  | zero => simp [bitrev_buffer]
  | succ n ih => rw [bitrev_buffer_succ, List.length_set, ih]

/-- The loop reverses the bytes at the positions below `n` that lie inside
the buffer and leaves every other position as it was. -/
theorem bitrev_buffer_getD (buf : List Nat) (n j : Nat) :
    (bitrev_buffer buf n).getD j 0 =
      if j < n ∧ j < buf.length then bitrev (buf.getD j 0) else buf.getD j 0 := by
  induction n with
  | zero => simp [bitrev_buffer]
  | succ n ih =>
    rw [bitrev_buffer_succ, List.getD_eq_getElem?_getD, List.getElem?_set,
      bitrev_buffer_length]
    by_cases hnj : n = j
    · subst hnj
      by_cases hl : n < buf.length
      · rw [ih]
        simp [hl]
      · have hnone : buf[n]? = none := List.getElem?_eq_none (by omega)
        simp [hl, List.getD_eq_getElem?_getD, hnone]
    · rw [if_neg hnj, ← List.getD_eq_getElem?_getD, ih]
      by_cases hjn : j < n
      · have : j < n + 1 := by omega
        simp [hjn, this]
      · have : ¬ j < n + 1 := by omega
        simp [hjn, this]

/-! ## Completion handler -/

theorem fx2adc_cancel_async_dev_lost (dev : fx2adc_dev) :
    (fx2adc_cancel_async dev).2.dev_lost = dev.dev_lost := by
  unfold fx2adc_cancel_async
  split <;> rfl

theorem fx2adc_cancel_async_xfer_errors (dev : fx2adc_dev) :
    (fx2adc_cancel_async dev).2.xfer_errors = dev.xfer_errors := by
  unfold fx2adc_cancel_async
  split <;> rfl

/-- The handler on a completion that neither succeeded nor was cancelled. -/
theorem libusb_callback_failed (cc : Bool) (xfer : libusb_transfer) (dev : fx2adc_dev)
    (i : Nat) (h : xfer.status ≠ LIBUSB_TRANSFER_COMPLETED)
    (hc : xfer.status ≠ LIBUSB_TRANSFER_CANCELLED) :
    _libusb_callback cc xfer dev i =
      if (if xfer.status = LIBUSB_TRANSFER_ERROR then (dev.xfer_errors + 1) % 2 ^ 32
          else dev.xfer_errors) ≥ dev.xfer_buf_num ∨
          xfer.status = LIBUSB_TRANSFER_NO_DEVICE then
        (xfer, (fx2adc_cancel_async { dev with
          xfer_errors := (if xfer.status = LIBUSB_TRANSFER_ERROR then
            (dev.xfer_errors + 1) % 2 ^ 32 else dev.xfer_errors), dev_lost := 1 }).2, [])
      else
        (xfer, { dev with
          xfer_errors := (if xfer.status = LIBUSB_TRANSFER_ERROR then
            (dev.xfer_errors + 1) % 2 ^ 32 else dev.xfer_errors) }, []) := by
  simp only [_libusb_callback, if_neg h, if_pos hc]
  by_cases he : xfer.status = LIBUSB_TRANSFER_ERROR
  · simp only [if_pos he]
  · simp only [if_neg he]

/-- C4, counterexample: a completion with status timed out, an error status
other than cancellation, on a running session with 15 buffers and error
counter 0 leaves the counter at 0 instead of raising it to 1. -/
theorem libusb_callback_timed_out_not_counted :
    ({ idle_session profile_pso2020 with
        xfer_buf_num := 15, async_status := FX2ADC_RUNNING }).xfer_errors = 0 ∧
    (_libusb_callback false
        { status := LIBUSB_TRANSFER_TIMED_OUT, actual_length := 0, buffer := [] }
        { idle_session profile_pso2020 with
          xfer_buf_num := 15, async_status := FX2ADC_RUNNING } 0).2.1.xfer_errors = 0 := by
  decide

/-- C4, amended: for a completion that did not succeed, a cancelled transfer
changes nothing; otherwise the error counter becomes `n`, which is the counter
plus one (modulo 2^32) when the status is error and the counter itself for
timed out, stall, overflow and no device; and the session is marked lost and
`fx2adc_cancel_async` is applied exactly when `n` has reached the buffer count
or the status is no device, the session being otherwise unchanged. -/
theorem libusb_callback_error_path (cc : Bool) (xfer : libusb_transfer) (dev : fx2adc_dev)
    (i : Nat) (h : xfer.status ≠ LIBUSB_TRANSFER_COMPLETED) :
    (xfer.status = LIBUSB_TRANSFER_CANCELLED →
      _libusb_callback cc xfer dev i = (xfer, dev, [])) ∧
    (xfer.status ≠ LIBUSB_TRANSFER_CANCELLED →
      ∃ n : Nat,
        n = (if xfer.status = LIBUSB_TRANSFER_ERROR then (dev.xfer_errors + 1) % 2 ^ 32
             else dev.xfer_errors) ∧
        (_libusb_callback cc xfer dev i).2.1.xfer_errors = n ∧
        (n ≥ dev.xfer_buf_num ∨ xfer.status = LIBUSB_TRANSFER_NO_DEVICE →
          (_libusb_callback cc xfer dev i).2.1 =
              (fx2adc_cancel_async { dev with xfer_errors := n, dev_lost := 1 }).2 ∧
            (_libusb_callback cc xfer dev i).2.1.dev_lost = 1) ∧
        (¬ (n ≥ dev.xfer_buf_num ∨ xfer.status = LIBUSB_TRANSFER_NO_DEVICE) →
          (_libusb_callback cc xfer dev i).2.1 = { dev with xfer_errors := n })) := by
  constructor
  · intro hc
    simp [_libusb_callback, hc]
  · intro hc
    refine ⟨_, rfl, ?_⟩
    rw [libusb_callback_failed cc xfer dev i h hc]
    by_cases hl : (if xfer.status = LIBUSB_TRANSFER_ERROR then (dev.xfer_errors + 1) % 2 ^ 32
        else dev.xfer_errors) ≥ dev.xfer_buf_num ∨ xfer.status = LIBUSB_TRANSFER_NO_DEVICE
    · rw [if_pos hl]
      refine ⟨by rw [fx2adc_cancel_async_xfer_errors], fun _ => ⟨rfl, ?_⟩, fun hn => absurd hl hn⟩
      rw [fx2adc_cancel_async_dev_lost]
    · rw [if_neg hl]
      exact ⟨rfl, fun hp => absurd hp hl, fun _ => rfl⟩

theorem libusb_callback_error_path_witness :
    (sample_transfer LIBUSB_TRANSFER_ERROR).status ≠ LIBUSB_TRANSFER_COMPLETED ∧
    (_libusb_callback false (sample_transfer LIBUSB_TRANSFER_ERROR) running_session 0).2.1.xfer_errors
      = 15 ∧
    (_libusb_callback false (sample_transfer LIBUSB_TRANSFER_ERROR) running_session 0).2.1.dev_lost
      = 1 := by
  obtain ⟨n, hn, he, hl, _⟩ :=
    (libusb_callback_error_path false (sample_transfer LIBUSB_TRANSFER_ERROR) running_session 0
      (by decide)).2 (by decide)
  have hn15 : n = 15 := by rw [hn]; decide
  subst hn15
  exact ⟨by decide, he, (hl (Or.inl (by decide))).2⟩

/-- The handler on a successful completion with a callback installed. -/
theorem libusb_callback_ok (cc : Bool) (xfer : libusb_transfer) (dev : fx2adc_dev)
    (i f : Nat) (hs : xfer.status = LIBUSB_TRANSFER_COMPLETED) (hcb : dev.cb = some f) :
    _libusb_callback cc xfer dev i =
      if dev.devinfo.ch1_bitreversed = true then
        ({ xfer with buffer := bitrev_buffer xfer.buffer xfer.actual_length },
          { user_callback cc dev with xfer_errors := 0 },
          [UsbCall.user_cb (bitrev_buffer xfer.buffer xfer.actual_length) xfer.actual_length
            dev.cb_ctx, UsbCall.submit_transfer i])
      else
        (xfer, { user_callback cc dev with xfer_errors := 0 },
          [UsbCall.user_cb xfer.buffer xfer.actual_length dev.cb_ctx,
            UsbCall.submit_transfer i]) := by
  simp only [_libusb_callback, if_pos hs, hcb]
  split <;> rfl

/-- C6: when a transfer completes successfully on a session with a callback
installed, the callback is invoked once with the buffer of the transfer, the
length `actual_length` and the context of the session, the transfer is then
resubmitted, and the error counter is 0 afterwards. With the flag
`ch1_bitreversed` clear the buffer is the one the transport produced; with the
flag set it has the same length, every position below `actual_length` holds a
byte whose bit `7 - k` is bit `k` of the byte the transport produced there, and
every position from `actual_length` on is unchanged. -/
theorem libusb_callback_completed (cc : Bool) (xfer : libusb_transfer) (dev : fx2adc_dev)
    (i f : Nat) (hs : xfer.status = LIBUSB_TRANSFER_COMPLETED) (hcb : dev.cb = some f)
    (hbytes : ∀ j, j < xfer.buffer.length → xfer.buffer.getD j 0 < 256) :
    (_libusb_callback cc xfer dev i).2.2 =
      [UsbCall.user_cb (_libusb_callback cc xfer dev i).1.buffer xfer.actual_length dev.cb_ctx,
       UsbCall.submit_transfer i] ∧
    (_libusb_callback cc xfer dev i).2.1.xfer_errors = 0 ∧
    (dev.devinfo.ch1_bitreversed = false →
      (_libusb_callback cc xfer dev i).1.buffer = xfer.buffer) ∧
    (dev.devinfo.ch1_bitreversed = true →
      (_libusb_callback cc xfer dev i).1.buffer.length = xfer.buffer.length ∧
      ∀ j, j < xfer.buffer.length →
        (j < xfer.actual_length →
          (_libusb_callback cc xfer dev i).1.buffer.getD j 0 < 256 ∧
          ∀ k, k < 8 →
            ((_libusb_callback cc xfer dev i).1.buffer.getD j 0).testBit (7 - k) =
              (xfer.buffer.getD j 0).testBit k) ∧
        (xfer.actual_length ≤ j →
          (_libusb_callback cc xfer dev i).1.buffer.getD j 0 = xfer.buffer.getD j 0)) := by
  by_cases hb : dev.devinfo.ch1_bitreversed = true
  · rw [libusb_callback_ok cc xfer dev i f hs hcb, if_pos hb]
    refine ⟨rfl, rfl, fun hf => absurd hb (by simp [hf]), fun _ => ⟨?_, ?_⟩⟩
    · exact bitrev_buffer_length _ _
    · intro j hj
      constructor
      · intro hja
        have hget : (bitrev_buffer xfer.buffer xfer.actual_length).getD j 0 =
            bitrev (xfer.buffer.getD j 0) := by
          rw [bitrev_buffer_getD, if_pos ⟨hja, hj⟩]
        refine ⟨?_, ?_⟩
        · show (bitrev_buffer xfer.buffer xfer.actual_length).getD j 0 < 256
          rw [hget]
          exact bitrev_lt _
        · intro k hk
          show ((bitrev_buffer xfer.buffer xfer.actual_length).getD j 0).testBit (7 - k) = _
          rw [hget]
          exact bitrev_testBit_fin ⟨xfer.buffer.getD j 0, hbytes j hj⟩ ⟨k, hk⟩
      · intro hja
        show (bitrev_buffer xfer.buffer xfer.actual_length).getD j 0 = _
        rw [bitrev_buffer_getD, if_neg (by omega)]
  · rw [libusb_callback_ok cc xfer dev i f hs hcb, if_neg hb]
    exact ⟨rfl, rfl, fun _ => rfl, fun hf => absurd hf hb⟩

theorem libusb_callback_completed_witness :
    (sample_transfer LIBUSB_TRANSFER_COMPLETED).status = LIBUSB_TRANSFER_COMPLETED ∧
    running_session.cb = some 1 ∧
    (_libusb_callback true (sample_transfer LIBUSB_TRANSFER_COMPLETED) running_session 3).2.2 =
      [UsbCall.user_cb [0x80, 0x01, 0x0f, 0xa5] 2 7, UsbCall.submit_transfer 3] ∧
    (_libusb_callback true (sample_transfer LIBUSB_TRANSFER_COMPLETED) running_session 3).2.1.xfer_errors
      = 0 := by
  have h := libusb_callback_completed true (sample_transfer LIBUSB_TRANSFER_COMPLETED)
    running_session 3 1 (by decide) (by decide)
    (by intro j hj
        have hj4 : j < 4 := hj
        interval_cases j <;> decide)
  refine ⟨by decide, by decide, ?_, h.2.1⟩
  rw [h.1]
  decide

/-! ## Buffer count and length through a streaming call -/

theorem fx2adc_cancel_async_bufcfg (dev : fx2adc_dev) :
    bufcfg (fx2adc_cancel_async dev).2 = bufcfg dev := by
  unfold fx2adc_cancel_async
  split <;> rfl

theorem user_callback_bufcfg (cc : Bool) (dev : fx2adc_dev) :
    bufcfg (user_callback cc dev) = bufcfg dev := by
  unfold user_callback
  split
  · exact fx2adc_cancel_async_bufcfg dev
  · rfl

theorem libusb_callback_bufcfg (cc : Bool) (xfer : libusb_transfer) (dev : fx2adc_dev)
    (i : Nat) : bufcfg (_libusb_callback cc xfer dev i).2.1 = bufcfg dev := by
  by_cases hs : xfer.status = LIBUSB_TRANSFER_COMPLETED
  · cases hcb : dev.cb with
    | none =>
      simp only [_libusb_callback, if_pos hs, hcb]
      rfl
    | some f =>
      rw [libusb_callback_ok cc xfer dev i f hs hcb]
      split <;> exact user_callback_bufcfg cc dev
  · by_cases hc : xfer.status = LIBUSB_TRANSFER_CANCELLED
    · have hres : _libusb_callback cc xfer dev i = (xfer, dev, []) := by
        simp [_libusb_callback, hc]
      rw [hres]
    · rw [libusb_callback_failed cc xfer dev i hs hc]
      split_ifs <;> first | exact fx2adc_cancel_async_bufcfg _ | rfl

theorem deliver_bufcfg (st : fx2adc_dev × List UsbCall) (c : Completion) :
    bufcfg (deliver st c).1 = bufcfg st.1 := by
  unfold deliver
  split
  · rfl
  · split
    · rfl
    · exact libusb_callback_bufcfg _ _ _ _

theorem foldl_deliver_bufcfg (cs : List Completion) (st : fx2adc_dev × List UsbCall) :
    bufcfg (cs.foldl deliver st).1 = bufcfg st.1 := by
  induction cs generalizing st with
  | nil => rfl
  | cons c cs ih => rw [List.foldl_cons, ih, deliver_bufcfg]

theorem handle_events_bufcfg (ev : HandleEvents) (st : fx2adc_dev × List UsbCall) :
    bufcfg (handle_events ev st).1 = bufcfg st.1 := by
  unfold handle_events
  rw [foldl_deliver_bufcfg]
  split
  · exact fx2adc_cancel_async_bufcfg _
  · rfl

theorem cancel_step_bufcfg (cancel : Nat → Int × HandleEvents) (st : ReadState) (i : Nat) :
    bufcfg (cancel_step cancel st i).dev = bufcfg st.dev := by
  unfold cancel_step
  split
  · rfl
  · split
    · rfl
    · split
      · dsimp only
        split
        · exact handle_events_bufcfg _ _
        · exact handle_events_bufcfg _ _
      · rfl

theorem foldl_cancel_step_bufcfg (cancel : Nat → Int × HandleEvents) (is : List Nat)
    (st : ReadState) : bufcfg (is.foldl (cancel_step cancel) st).dev = bufcfg st.dev := by
  induction is generalizing st with
  | nil => rfl
  | cons i is ih => rw [List.foldl_cons, ih, cancel_step_bufcfg]

theorem poll_loop_bufcfg (iters : List PollIter) (st st1 : ReadState)
    (h : poll_loop iters st = some st1) : bufcfg st1.dev = bufcfg st.dev := by
  induction iters generalizing st with
  | nil =>
    unfold poll_loop at h
    split at h
    · cases h; rfl
    · cases h
  | cons it rest ih =>
    unfold poll_loop at h
    split at h
    · cases h; rfl
    · simp only at h
      split at h
      · split at h
        · rw [ih _ h]
          exact handle_events_bufcfg _ _
        · cases h
          exact handle_events_bufcfg _ _
      · split at h
        · split at h
          · cases h
            exact handle_events_bufcfg _ _
          · split at h
            · cases h
              show bufcfg (handle_events _ _).1 = _
              rw [handle_events_bufcfg, foldl_cancel_step_bufcfg]
              exact handle_events_bufcfg _ _
            · rw [ih _ h, foldl_cancel_step_bufcfg]
              exact handle_events_bufcfg _ _
        · rw [ih _ h]
          exact handle_events_bufcfg _ _

theorem submit_loop_bufcfg (submit : Nat → Int) (n i : Nat) (st : ReadState) :
    bufcfg (submit_loop submit n i st).dev = bufcfg st.dev := by
  induction n generalizing i st with
  | zero => rfl
  | succ n ih =>
    unfold submit_loop
    simp only
    split
    · rfl
    · rw [ih]

theorem alloc_async_buffers_bufcfg (t : Transport) (dev : fx2adc_dev) :
    bufcfg (_fx2adc_alloc_async_buffers t dev).2.1 = bufcfg dev := by
  unfold _fx2adc_alloc_async_buffers
  cases hx : dev.xfer <;> simp only <;> split <;> try rfl
  all_goals (split <;> try rfl)
  all_goals (split <;> rfl)

theorem free_async_buffers_bufcfg (dev : fx2adc_dev) :
    bufcfg (_fx2adc_free_async_buffers dev).2.1 = bufcfg dev := rfl

/-- C5: `fx2adc_read` resolves the buffer count to `buf_num` when it is
positive and to 15 otherwise, and the buffer length to `buf_len` when it is a
positive multiple of 512 and to 262144 otherwise, so the resolved length is a
positive multiple of 512; and on an inactive session every streaming call that
returns hands back the session with exactly these two values. -/
theorem fx2adc_read_resolves_buffers (dev : fx2adc_dev) (cb : Option Nat)
    (ctx buf_num buf_len : Nat) :
    (fx2adc_read_setup dev cb ctx buf_num buf_len).xfer_buf_num =
      (if buf_num > 0 then buf_num else 15) ∧
    (fx2adc_read_setup dev cb ctx buf_num buf_len).xfer_buf_len =
      (if buf_len > 0 ∧ buf_len % 512 = 0 then buf_len else 262144) ∧
    0 < (fx2adc_read_setup dev cb ctx buf_num buf_len).xfer_buf_len ∧
    (fx2adc_read_setup dev cb ctx buf_num buf_len).xfer_buf_len % 512 = 0 ∧
    ∀ (t : Transport) (r : Int) (dev1 : fx2adc_dev) (log : List UsbCall),
      dev.async_status = FX2ADC_INACTIVE →
      fx2adc_read t dev cb ctx buf_num buf_len = some (r, dev1, log) →
      dev1.xfer_buf_num = (if buf_num > 0 then buf_num else 15) ∧
      dev1.xfer_buf_len = (if buf_len > 0 ∧ buf_len % 512 = 0 then buf_len else 262144) := by
  have hnum : (fx2adc_read_setup dev cb ctx buf_num buf_len).xfer_buf_num =
      (if buf_num > 0 then buf_num else 15) := rfl
  have hlen : (fx2adc_read_setup dev cb ctx buf_num buf_len).xfer_buf_len =
      (if buf_len > 0 ∧ buf_len % 512 = 0 then buf_len else 262144) := rfl
  refine ⟨hnum, hlen, ?_, ?_, ?_⟩
  · rw [hlen]
    split_ifs with h
    · exact h.1
    · decide
  · rw [hlen]
    split_ifs with h
    · exact h.2
    · decide
  · intro t r dev1 log hin hread
    unfold fx2adc_read at hread
    rw [if_neg (by simp [hin])] at hread
    dsimp only at hread
    split at hread
    · cases hread
    · rename_i st3 hpoll
      have hcfg := poll_loop_bufcfg _ _ _ hpoll
      simp only [Option.some.injEq, Prod.mk.injEq] at hread
      obtain ⟨-, hdev, -⟩ := hread
      have htotal : bufcfg dev1 = bufcfg (fx2adc_read_setup dev cb ctx buf_num buf_len) := by
        rw [← hdev]
        show bufcfg (_fx2adc_free_async_buffers st3.dev).2.1 = _
        rw [free_async_buffers_bufcfg, hcfg]
        show bufcfg (submit_loop _ _ _ _).dev = _
        rw [submit_loop_bufcfg]
        exact alloc_async_buffers_bufcfg _ _
      have h1 : dev1.xfer_buf_num = _ := congrArg Prod.fst htotal
      have h2 : dev1.xfer_buf_len = _ := congrArg Prod.snd htotal
      exact ⟨h1.trans hnum, h2.trans hlen⟩

theorem fx2adc_read_resolves_buffers_witness :
    (idle_session profile_pso2020).async_status = FX2ADC_INACTIVE ∧
    (fx2adc_read { heap_transport [pass_nothing_in_flight] with submit := fun _ => -1 }
        (idle_session profile_pso2020) (some 1) 0 0 1000).map
        (fun res => (res.2.1.xfer_buf_num, res.2.1.xfer_buf_len)) = some (15, 262144) := by
  refine ⟨rfl, ?_⟩
  have hsome : (fx2adc_read { heap_transport [pass_nothing_in_flight] with submit := fun _ => -1 }
      (idle_session profile_pso2020) (some 1) 0 0 1000).isSome = true := by decide
  obtain ⟨⟨r, dev1, log⟩, hres⟩ := Option.isSome_iff_exists.mp hsome
  have h := (fx2adc_read_resolves_buffers (idle_session profile_pso2020) (some 1) 0 0
    1000).2.2.2.2 _ r dev1 log rfl hres
  rw [hres]
  simp only [Option.map_some']
  rw [h.1, h.2]
  decide

/-! ## Si5351 calculator -/

/-- C8, evaluated at the failing input: for the target 80999969 Hz with
correction 0, `si5351_Calc` takes the branch below 81 MHz and stores
`36 + 0/1` and `11 + 115388/1038461`; the frequency of that configuration
differs from the target by 8743581/1282051 Hz, which is more than 6 Hz. -/
theorem si5351_Calc_error_above_6Hz :
    si5351_Calc 80999969 0 =
      some ({ mult := 36, num := 0, denom := 1 },
            { allowIntegerMode := 1, div := 11, num := 115388, denom := 1038461,
              rdiv := SI5351_R_DIV_1 }) ∧
    adjusted_target 80999969 = 80999969 ∧
    |si5351_freq { mult := 36, num := 0, denom := 1 }
        { allowIntegerMode := 1, div := 11, num := 115388, denom := 1038461,
          rdiv := SI5351_R_DIV_1 } - ((adjusted_target 80999969 : Int) : ℚ)| =
      8743581 / 1282051 ∧
    (6 : ℚ) < 8743581 / 1282051 := by
  refine ⟨by decide, by decide, ?_, by norm_num⟩
  have ht : adjusted_target 80999969 = 80999969 := by decide
  rw [ht]
  norm_num [si5351_freq, Fxtal, abs_of_nonneg]

/-- The accuracy bound at one target, from the configuration computed there. -/
theorem si5351_Calc_accurate_of (Fclk : Int) (pll : si5351PLLConfig_t)
    (out : si5351OutputConfig_t) (hc : si5351_Calc Fclk 0 = some (pll, out))
    (he : |si5351_freq pll out - ((adjusted_target Fclk : Int) : ℚ)| ≤ 6) :
    ∃ pll out, si5351_Calc Fclk 0 = some (pll, out) ∧
      |si5351_freq pll out - ((adjusted_target Fclk : Int) : ℚ)| ≤ 6 :=
  ⟨pll, out, hc, he⟩

/-- C9: for each of the targets 8 kHz, 500 kHz, 1 MHz, 50 MHz, 100 MHz,
150 MHz and 160 MHz with correction 0, `si5351_Calc` stores a configuration
whose frequency, in exact rational arithmetic, is within 6 Hz of the adjusted
target (64 times the target below 1 MHz, the target itself otherwise). -/
theorem si5351_Calc_representative_targets (Fclk : Int) (h : Fclk ∈ representative_targets) :
    ∃ pll out, si5351_Calc Fclk 0 = some (pll, out) ∧
      |si5351_freq pll out - ((adjusted_target Fclk : Int) : ℚ)| ≤ 6 := by
  simp only [representative_targets, List.mem_cons, List.mem_singleton, List.not_mem_nil,
    or_false] at h
  rcases h with rfl | rfl | rfl | rfl | rfl | rfl | rfl
  · refine si5351_Calc_accurate_of 8000 { mult := 36, num := 0, denom := 1 }
      { allowIntegerMode := 1, div := 1757, num := 416000, denom := 512000,
        rdiv := SI5351_R_DIV_64 } (by decide) ?_
    rw [show adjusted_target 8000 = 512000 by decide]
    norm_num [si5351_freq, Fxtal, abs_le]
  · refine si5351_Calc_accurate_of 500000 { mult := 36, num := 0, denom := 1 }
      { allowIntegerMode := 1, div := 28, num := 129032, denom := 1032258,
        rdiv := SI5351_R_DIV_64 } (by decide) ?_
    rw [show adjusted_target 500000 = 32000000 by decide]
    norm_num [si5351_freq, Fxtal, abs_le]
  · refine si5351_Calc_accurate_of 1000000 { mult := 36, num := 0, denom := 1 }
      { allowIntegerMode := 1, div := 900, num := 0, denom := 1000000,
        rdiv := SI5351_R_DIV_1 } (by decide) ?_
    rw [show adjusted_target 1000000 = 1000000 by decide]
    norm_num [si5351_freq, Fxtal, abs_le]
  · refine si5351_Calc_accurate_of 50000000 { mult := 36, num := 0, denom := 1 }
      { allowIntegerMode := 1, div := 18, num := 0, denom := 1041666,
        rdiv := SI5351_R_DIV_1 } (by decide) ?_
    rw [show adjusted_target 50000000 = 50000000 by decide]
    norm_num [si5351_freq, Fxtal, abs_le]
  · refine si5351_Calc_accurate_of 100000000 { mult := 24, num := 0, denom := 1041666 }
      { allowIntegerMode := 1, div := 6, num := 0, denom := 1,
        rdiv := SI5351_R_DIV_1 } (by decide) ?_
    rw [show adjusted_target 100000000 = 100000000 by decide]
    norm_num [si5351_freq, Fxtal, abs_le]
  · refine si5351_Calc_accurate_of 150000000 { mult := 24, num := 0, denom := 1041666 }
      { allowIntegerMode := 1, div := 4, num := 0, denom := 1,
        rdiv := SI5351_R_DIV_1 } (by decide) ?_
    rw [show adjusted_target 150000000 = 150000000 by decide]
    norm_num [si5351_freq, Fxtal, abs_le]
  · refine si5351_Calc_accurate_of 160000000 { mult := 25, num := 625000, denom := 1041666 }
      { allowIntegerMode := 1, div := 4, num := 0, denom := 1,
        rdiv := SI5351_R_DIV_1 } (by decide) ?_
    rw [show adjusted_target 160000000 = 160000000 by decide]
    norm_num [si5351_freq, Fxtal, abs_le]

theorem si5351_Calc_representative_targets_witness :
    (500000 : Int) ∈ representative_targets ∧
    ∃ pll out, si5351_Calc 500000 0 = some (pll, out) ∧
      |si5351_freq pll out - ((adjusted_target 500000 : Int) : ℚ)| ≤ 6 :=
  ⟨by decide, si5351_Calc_representative_targets 500000 (by decide)⟩

theorem i32_eq_some (v : Int) (h1 : INT32_MIN ≤ v) (h2 : v ≤ INT32_MAX) : i32 v = some v := by
  simp [i32, h1, h2]

theorem i32_div_eq_some (a b : Int) (ha : 0 ≤ a) (ha2 : a ≤ INT32_MAX) (hb : 0 < b) :
    i32_div a b = some (a / b) := by
  have hq0 : 0 ≤ a / b := Int.ediv_nonneg ha (le_of_lt hb)
  have hq1 : a / b ≤ a := Int.ediv_le_self b ha
  have hmin : INT32_MIN ≤ a / b := le_trans (by decide) hq0
  unfold i32_div
  rw [if_neg (ne_of_gt hb), Int.tdiv_eq_ediv ha (le_of_lt hb)]
  exact i32_eq_some _ hmin (le_trans hq1 ha2)

theorem i32_mod_eq_some (a b : Int) (ha : 0 ≤ a) (hb : 0 < b) :
    i32_mod a b = some (a % b) := by
  unfold i32_mod
  have hmin : a ≠ INT32_MIN := by
    intro h
    rw [h] at ha
    exact absurd ha (by decide)
  rw [if_neg (ne_of_gt hb), if_neg (fun h => hmin h.1), Int.tmod_eq_emod ha (le_of_lt hb)]

/-- With correction 0 the ratios are computed for the clamped request,
scaled by 64 below 1 MHz. -/
theorem si5351_Calc_zero_correction (Fclk : Int) :
    si5351_Calc Fclk 0 =
      si5351_Calc_ratios (adjusted_target (max 8000 (min Fclk 160000000)))
        (if max 8000 (min Fclk 160000000) < 1000000 then SI5351_R_DIV_64
         else SI5351_R_DIV_1) := by
  have hF0 : (if Fclk < 8000 then (8000 : Int) else if Fclk > 160000000 then 160000000
      else Fclk) = max 8000 (min Fclk 160000000) := by
    split_ifs <;> omega
  unfold si5351_Calc
  simp only [hF0]
  have hlo : (8000 : Int) ≤ max 8000 (min Fclk 160000000) := by omega
  have hhi : max 8000 (min Fclk 160000000) ≤ (160000000 : Int) := by omega
  generalize max 8000 (min Fclk 160000000) = F0 at hlo hhi ⊢
  have e4 : i32_div 0 100 = some 0 := by decide
  by_cases h : F0 < 1000000
  · have e1 : i32 (F0 * 64) = some (F0 * 64) :=
      i32_eq_some _ (by unfold INT32_MIN; omega) (by unfold INT32_MAX; omega)
    have e2 : i32_div (F0 * 64) 1000000 = some (F0 * 64 / 1000000) :=
      i32_div_eq_some _ _ (by omega) (by unfold INT32_MAX; omega) (by norm_num)
    have e3 : i32 (F0 * 64 / 1000000 * 0) = some 0 := by
      rw [mul_zero]; decide
    have e5 : i32 (F0 * 64 - 0) = some (F0 * 64) := by
      rw [sub_zero]; exact e1
    have ht : adjusted_target F0 = F0 * 64 := by
      unfold adjusted_target
      rw [if_pos h]; ring
    simp only [h, if_true, e1, e2, e3, e4, e5, ht, Option.bind_eq_bind, Option.some_bind,
      bind, Option.bind]
  · have e1 : i32 F0 = some F0 :=
      i32_eq_some _ (by unfold INT32_MIN; omega) (by unfold INT32_MAX; omega)
    have e2 : i32_div F0 1000000 = some (F0 / 1000000) :=
      i32_div_eq_some _ _ (by omega) (by unfold INT32_MAX; omega) (by norm_num)
    have e3 : i32 (F0 / 1000000 * 0) = some 0 := by
      rw [mul_zero]; decide
    have e5 : i32 (F0 - 0) = some F0 := by
      rw [sub_zero]; exact e1
    have ht : adjusted_target F0 = F0 := by
      unfold adjusted_target
      rw [if_neg h]
    simp only [h, if_false, e1, e2, e3, e4, e5, ht, Option.bind_eq_bind, Option.some_bind,
      bind, Option.bind]

/-- The branch below 81 MHz in closed form. -/
theorem si5351_Calc_ratios_low (F : Int) (rdiv : si5351RDiv_t) (hlo : 512000 ≤ F)
    (hhi : F < 81000000) :
    si5351_Calc_ratios F rdiv =
      some ({ mult := 36, num := 0, denom := 1 },
            { allowIntegerMode := 1, div := 900000000 / F,
              num := 900000000 % F / (F / 1048576 + 1),
              denom := F / (F / 1048576 + 1), rdiv := rdiv }) := by
  have hF0 : (0 : Int) < F := by omega
  have hs : F >>> (20 : Nat) = F / 1048576 := by
    have h := Int.shiftRight_eq_div_pow F 20
    norm_num at h
    exact h
  have ht0 : (0 : Int) < F / 1048576 + 1 := by omega
  have hm0 : 0 ≤ 900000000 % F := Int.emod_nonneg _ (ne_of_gt hF0)
  have hm1 : 900000000 % F < F := Int.emod_lt_of_pos _ hF0
  have e1 : i32_div 900000000 F = some (900000000 / F) :=
    i32_div_eq_some _ _ (by norm_num) (by decide) hF0
  have e2 : i32 (F / 1048576 + 1) = some (F / 1048576 + 1) :=
    i32_eq_some _ (by unfold INT32_MIN; omega) (by unfold INT32_MAX; omega)
  have e3 : i32_mod 900000000 F = some (900000000 % F) :=
    i32_mod_eq_some _ _ (by norm_num) hF0
  have e4 : i32_div (900000000 % F) (F / 1048576 + 1) =
      some (900000000 % F / (F / 1048576 + 1)) :=
    i32_div_eq_some _ _ hm0 (by unfold INT32_MAX; omega) ht0
  have e5 : i32_div F (F / 1048576 + 1) = some (F / (F / 1048576 + 1)) :=
    i32_div_eq_some _ _ (by omega) (by unfold INT32_MAX; omega) ht0
  unfold si5351_Calc_ratios
  simp only [hhi, if_true, hs, e1, e2, e3, e4, e5, Option.bind_eq_bind, Option.some_bind,
    bind, Option.bind, pure]

/-- The branch from 81 MHz on in closed form. -/
theorem si5351_Calc_ratios_high (F : Int) (rdiv : si5351RDiv_t) (hlo : 81000000 ≤ F)
    (hhi : F ≤ 160000000) :
    si5351_Calc_ratios F rdiv =
      some ({ mult := (if F ≥ 150000000 then 4 else if F ≥ 100000000 then 6 else 8) * F
                / 25000000,
              num := (if F ≥ 150000000 then 4 else if F ≥ 100000000 then 6 else 8) * F
                % 25000000 / 24,
              denom := 1041666 },
            { allowIntegerMode := 1,
              div := if F ≥ 150000000 then 4 else if F ≥ 100000000 then 6 else 8,
              num := 0, denom := 1, rdiv := rdiv }) := by
  have hnlt : ¬ F < 81000000 := by omega
  have hx : ∃ x : Int, x = (if F ≥ 150000000 then 4 else if F ≥ 100000000 then 6 else 8) ∧
      600000000 ≤ x * F ∧ x * F ≤ 900000000 := by
    refine ⟨_, rfl, ?_, ?_⟩ <;> split_ifs <;> omega
  obtain ⟨x, hxe, hx0, hx1⟩ := hx
  rw [← hxe]
  have e1 : i32 (x * F) = some (x * F) :=
    i32_eq_some _ (by unfold INT32_MIN; omega) (by unfold INT32_MAX; omega)
  have e2 : i32_div (x * F) 25000000 = some (x * F / 25000000) :=
    i32_div_eq_some _ _ (by omega) (by unfold INT32_MAX; omega) (by norm_num)
  have e3 : i32 ((25000000 : Int) >>> (20 : Nat) + 1) = some 24 := by decide
  have e4 : i32_mod (x * F) 25000000 = some (x * F % 25000000) :=
    i32_mod_eq_some _ _ (by omega) (by norm_num)
  have e5 : i32_div (x * F % 25000000) 24 = some (x * F % 25000000 / 24) :=
    i32_div_eq_some _ _ (by omega) (by unfold INT32_MAX; omega) (by norm_num)
  have e6 : i32_div 25000000 24 = some 1041666 := by decide
  unfold si5351_Calc_ratios
  simp only [hnlt, if_false, ← hxe, e1, e2, e3, e4, e5, e6, Option.bind_eq_bind,
    Option.some_bind, bind, Option.bind, pure]

theorem adjusted_target_clamped (Fclk : Int) :
    512000 ≤ adjusted_target (max 8000 (min Fclk 160000000)) ∧
    adjusted_target (max 8000 (min Fclk 160000000)) ≤ 160000000 := by
  unfold adjusted_target
  split_ifs <;> omega

/-- C10: for every request `Fclk`, in particular every `int32_t` value, and
correction 0, `si5351_Calc` runs to the end without a division by zero or an
overflow, and the fractions it stores satisfy `0 ≤ num ≤ 2^20` and
`0 < denom ≤ 2^20` for the PLL and for the output divider. -/
theorem si5351_Calc_fraction_bounds (Fclk : Int) :
    ∃ pll out, si5351_Calc Fclk 0 = some (pll, out) ∧
      0 ≤ pll.num ∧ pll.num ≤ 2 ^ 20 ∧ 0 < pll.denom ∧ pll.denom ≤ 2 ^ 20 ∧
      0 ≤ out.num ∧ out.num ≤ 2 ^ 20 ∧ 0 < out.denom ∧ out.denom ≤ 2 ^ 20 := by
  rw [si5351_Calc_zero_correction]
  obtain ⟨hlo, hhi⟩ := adjusted_target_clamped Fclk
  generalize adjusted_target (max 8000 (min Fclk 160000000)) = F at hlo hhi
  generalize (if max 8000 (min Fclk 160000000) < 1000000 then SI5351_R_DIV_64
    else SI5351_R_DIV_1) = rdiv
  by_cases h : F < 81000000
  · rw [si5351_Calc_ratios_low F rdiv hlo h]
    have hF0 : (0 : Int) < F := by omega
    have ht0 : (0 : Int) < F / 1048576 + 1 := by omega
    have hm0 : 0 ≤ 900000000 % F := Int.emod_nonneg _ (ne_of_gt hF0)
    have hm1 : 900000000 % F < F := Int.emod_lt_of_pos _ hF0
    have hz1 : F / (F / 1048576 + 1) < 1048576 :=
      Int.ediv_lt_of_lt_mul ht0 (by omega)
    have hz0 : 1 ≤ F / (F / 1048576 + 1) :=
      Int.le_ediv_of_mul_le ht0 (by omega)
    have hy0 : 0 ≤ 900000000 % F / (F / 1048576 + 1) :=
      Int.ediv_nonneg hm0 (le_of_lt ht0)
    have hy1 : 900000000 % F / (F / 1048576 + 1) ≤ F / (F / 1048576 + 1) :=
      Int.ediv_le_ediv ht0 (le_of_lt hm1)
    refine ⟨_, _, rfl, ?_⟩
    norm_num
    omega
  · rw [si5351_Calc_ratios_high F rdiv (by omega) hhi]
    refine ⟨_, _, rfl, ?_⟩
    norm_num
    split_ifs <;> omega


/-! ## Catalog matching -/

theorem find_known_device_from_first (vid pid prod_ver : Nat) (ps : List fx2adc_devinfo_t)
    (i k : Nat) (hk : k < ps.length)
    (hm : pre_match (ps.getD k all_zero_profile) vid pid = true ∨
      post_match (ps.getD k all_zero_profile) vid pid prod_ver = true)
    (hfirst : ∀ j, j < k → pre_match (ps.getD j all_zero_profile) vid pid = false ∧
      post_match (ps.getD j all_zero_profile) vid pid prod_ver = false) :
    find_known_device_from vid pid prod_ver ps i =
      some (i + k, !pre_match (ps.getD k all_zero_profile) vid pid) := by
  induction ps generalizing i k with
  | nil => simp at hk
  | cons p ps ih =>
    cases k with
    | zero =>
      simp only [List.getD_cons_zero] at hm ⊢
      unfold find_known_device_from
      by_cases hpre : p.orig_vid = vid ∧ p.orig_pid = pid
      · simp [hpre, pre_match]
      · have hpost : p.fw_vid = vid ∧ p.fw_pid = pid ∧ p.fw_prod_ver = prod_ver := by
          rcases hm with h | h
          · exact absurd (by simpa [pre_match] using h) hpre
          · simpa [post_match] using h
        simp [hpre, hpost, pre_match]
    | succ k =>
      have h0 := hfirst 0 (Nat.succ_pos k)
      simp only [List.getD_cons_zero] at h0
      have hpre : ¬ (p.orig_vid = vid ∧ p.orig_pid = pid) := by
        simpa [pre_match] using h0.1
      have hpost : ¬ (p.fw_vid = vid ∧ p.fw_pid = pid ∧ p.fw_prod_ver = prod_ver) := by
        simpa [post_match] using h0.2
      unfold find_known_device_from
      rw [if_neg hpre, if_neg hpost]
      simp only [List.getD_cons_succ] at hm ⊢
      rw [ih (i + 1) k (by simpa using hk) hm
        (fun j hj => by simpa using hfirst (j + 1) (Nat.succ_lt_succ hj))]
      congr 2
      omega

theorem find_known_device_from_none (vid pid prod_ver : Nat) (ps : List fx2adc_devinfo_t)
    (i : Nat)
    (hnone : ∀ j, j < ps.length → pre_match (ps.getD j all_zero_profile) vid pid = false ∧
      post_match (ps.getD j all_zero_profile) vid pid prod_ver = false) :
    find_known_device_from vid pid prod_ver ps i = none := by
  induction ps generalizing i with
  | nil => rfl
  | cons p ps ih =>
    have h0 := hnone 0 (by simp)
    simp only [List.getD_cons_zero] at h0
    have hpre : ¬ (p.orig_vid = vid ∧ p.orig_pid = pid) := by
      simpa [pre_match] using h0.1
    have hpost : ¬ (p.fw_vid = vid ∧ p.fw_pid = pid ∧ p.fw_prod_ver = prod_ver) := by
      simpa [post_match] using h0.2
    unfold find_known_device_from
    rw [if_neg hpre, if_neg hpost]
    exact ih (i + 1) (fun j hj => by simpa using hnone (j + 1) (by simpa using hj))


/-- C16: for each of the nine device profiles and every firmware version,
`find_known_device` applied to the pre-firmware pair of the profile returns
that profile (its index in `dev_profiles`) with the flag `configured` false. -/
theorem find_known_device_pre_firmware (k ver : Nat) (hk : k < 9) :
    find_known_device (profile k).orig_vid (profile k).orig_pid ver = some (k, false) := by
  interval_cases k <;> rfl

theorem find_known_device_pre_firmware_witness :
    (7 : Nat) < 9 ∧
    find_known_device (profile 7).orig_vid (profile 7).orig_pid 0x0100 = some (7, false) :=
  ⟨by decide, find_known_device_pre_firmware 7 0x0100 (by decide)⟩

/-- C17, counterexample: for the second 6022BE entry (index 1) and for the
DSO2020 (index 2), `find_known_device` applied to the post-firmware identity of
the entry returns the first 6022BE entry (index 0), another profile: the model
name of index 2 is DSO2020, that of index 0 is 6022BE, and the entries 1 and 0
differ. -/
theorem find_known_device_post_firmware_shared :
    find_known_device (profile 1).fw_vid (profile 1).fw_pid (profile 1).fw_prod_ver
      = some (0, true) ∧
    find_known_device (profile 2).fw_vid (profile 2).fw_pid (profile 2).fw_prod_ver
      = some (0, true) ∧
    (profile 2).model = "DSO2020" ∧ (profile 0).model = "6022BE" ∧
    profile 1 ≠ profile 0 := by
  decide

/-- C17, amended: for each of the nine device profiles, `find_known_device`
applied to the post-firmware identity of the profile returns, with the flag
`configured` true, the first entry in catalog order that has this
post-firmware identity, which is the profile itself or an earlier one. -/
theorem find_known_device_post_firmware (k : Nat) (hk : k < 9) :
    ∃ j, j < k + 1 ∧
      find_known_device (profile k).fw_vid (profile k).fw_pid (profile k).fw_prod_ver
        = some (j, true) ∧
      post_match (profile j) (profile k).fw_vid (profile k).fw_pid (profile k).fw_prod_ver
        = true ∧
      ∀ i, i < j →
        post_match (profile i) (profile k).fw_vid (profile k).fw_pid (profile k).fw_prod_ver
          = false := by
  interval_cases k <;> decide

theorem find_known_device_post_firmware_witness :
    (5 : Nat) < 9 ∧
    find_known_device (profile 5).fw_vid (profile 5).fw_pid (profile 5).fw_prod_ver
      = some (4, true) := by
  obtain ⟨j, hj, hf, hp, hfirst⟩ := find_known_device_post_firmware 5 (by decide)
  refine ⟨by decide, ?_⟩
  rw [hf]
  have h4 : post_match (profile 4) (profile 5).fw_vid (profile 5).fw_pid
      (profile 5).fw_prod_ver = true := by decide
  have : ¬ 4 < j := fun h => by
    have := hfirst 4 h
    rw [h4] at this
    exact absurd this (by decide)
  have hj4 : j = 4 := by
    interval_cases j <;> first | rfl | (exfalso; revert hp; decide)
  rw [hj4]

/-- C18, evaluated at the failing input: the query with vendor 0 and
product 0 equals neither identity of any of the nine profiles, for every
version, yet `find_known_device` returns the entry at index 9, the `ALL_ZERO`
element that ends the array, and stores false through `configured`. -/
theorem find_known_device_all_zero (ver : Nat) :
    find_known_device 0 0 ver = some (9, false) ∧
    ∀ k, k < 9 → pre_match (profile k) 0 0 = false ∧ post_match (profile k) 0 0 ver = false := by
  refine ⟨rfl, ?_⟩
  intro k hk
  interval_cases k <;> exact ⟨rfl, rfl⟩

/-- C19: for every query, when the entry at index `k` of `dev_profiles`
matches by its pre-firmware pair or by its post-firmware triple and no earlier
entry matches, `find_known_device` returns that entry, with `configured` false
when it matches by the pre-firmware pair and true otherwise; so of two entries
sharing an identity the earlier one is returned. When no entry matches, it
returns `NULL`. -/
theorem find_known_device_first_match (vid pid prod_ver : Nat) :
    (∀ k, k < dev_profiles.length →
      (pre_match (profile k) vid pid = true ∨ post_match (profile k) vid pid prod_ver = true) →
      (∀ j, j < k → pre_match (profile j) vid pid = false ∧
        post_match (profile j) vid pid prod_ver = false) →
      find_known_device vid pid prod_ver = some (k, !pre_match (profile k) vid pid)) ∧
    ((∀ j, j < dev_profiles.length → pre_match (profile j) vid pid = false ∧
        post_match (profile j) vid pid prod_ver = false) →
      find_known_device vid pid prod_ver = none) := by
  constructor
  · intro k hk hm hfirst
    have h := find_known_device_from_first vid pid prod_ver dev_profiles 0 k hk hm hfirst
    rw [Nat.zero_add] at h
    exact h
  · intro hnone
    exact find_known_device_from_none vid pid prod_ver dev_profiles 0 hnone

theorem find_known_device_first_match_witness :
    find_known_device 0x1d50 0x608e 1 = some (0, true) ∧
    post_match (profile 1) 0x1d50 0x608e 1 = true ∧
    find_known_device 0x1234 0x5678 1 = none := by
  have h := find_known_device_first_match 0x1d50 0x608e 1
  have h2 := find_known_device_first_match 0x1234 0x5678 1
  refine ⟨?_, by decide, ?_⟩
  · exact h.1 0 (by decide) (by decide) (by intro j hj; omega)
  · exact h2.2 (by decide)


/-! ## Closest-match setters, hardware defaults, enumeration -/

/-- C11, evaluated at the failing input: on the PSO2020 profile with the
request -2147483648 mV the difference `millivolts - vdiv` leaves the `int`
range; as compiled (two's complement) the loop selects index 0 (10000 mV) and
writes its code 1, although the entry at index 7 (50 mV) is nearer. -/
theorem fx2adc_set_vdiv_overflow :
    (fx2adc_set_vdiv 1 (idle_session (profile 8)) 1 (-2147483648)).2.2 =
      [UsbCall.control_write VDIV_CH1_REG 1] ∧
    vdiv_reg.getD 0 0 = 1 ∧
    vdiv_millivolts ((profile 8).vdivs.getD 0 (0, 1)) = 10000 ∧
    vdiv_millivolts ((profile 8).vdivs.getD 7 (0, 1)) = 50 ∧
    |(50 : Int) - (-2147483648)| < |(10000 : Int) - (-2147483648)| := by
  decide

/-- C12, evaluated at the failing input: for the request 3000000000 Hz on the
internal clock the difference taken modulo 2^32 is stored in an `int32_t`;
the loop selects index 9, writes the code 10 and records 100000 Hz, although
the entry 48000000 Hz at index 0 is nearer. -/
theorem fx2adc_set_sample_rate_wraps :
    (fx2adc_set_sample_rate (fun _ _ => 1) 0 (idle_session (profile 0)) 3000000000 false).log =
      [UsbCall.control_write SAMPLERATE_REG 10] ∧
    (fx2adc_set_sample_rate (fun _ _ => 1) 0 (idle_session (profile 0)) 3000000000 false).dev.rate
      = 100000 ∧
    samplerates.getD 9 0 = 100000 ∧ samplerate_regs.getD 9 0 = 10 ∧
    samplerates.getD 0 0 = 48000000 ∧
    |(48000000 : Int) - 3000000000| < |(100000 : Int) - 3000000000| := by
  decide

/-- C13, evaluated at the failing input: on a 6022BE session,
`fx2adc_set_vdiv(dev, 1, 1000)` selects index 0 (1000 mV) and writes its code
1, but `fx2adc_get_vdiv` then returns 100, the value of the last table entry. -/
theorem fx2adc_set_vdiv_records_last_entry :
    (fx2adc_set_vdiv 1 (idle_session (profile 0)) 1 1000).2.2 =
      [UsbCall.control_write VDIV_CH1_REG 1] ∧
    vdiv_reg.getD 0 0 = 1 ∧
    vdiv_millivolts ((profile 0).vdivs.getD 0 (0, 1)) = 1000 ∧
    fx2adc_get_vdiv (fx2adc_set_vdiv 1 (idle_session (profile 0)) 1 1000).2.1 = 100 := by
  decide

/-- C14, evaluated at the failing input: with the external clock and the
clock generator present, the request 1000 Hz programs the generator with the
configuration of the clamped target 8000 Hz, but `fx2adc_get_sample_rate`
returns 1000. -/
theorem fx2adc_set_sample_rate_ext_unclamped :
    fx2adc_get_sample_rate
      (fx2adc_set_sample_rate (fun _ _ => 1) 0
        { idle_session (profile 0) with clockgen_present := true } 1000 true).dev = 1000 ∧
    (fx2adc_set_sample_rate (fun _ _ => 1) 0
        { idle_session (profile 0) with clockgen_present := true } 1000 true).clock =
      some (si5351_Calc 8000 0) ∧
    si5351_clamp 1000 = 8000 := by
  decide

/-- C15, evaluated on every profile: `fx2adc_init_hardware` takes the
register code `vdiv_reg[vdivs_size - 1]` (10, 12 or 14) as index into the
divider table of the profile, an index outside the table, so the value it
records as current vdiv is read outside the array. -/
theorem fx2adc_init_hardware_reads_outside (k : Nat) (r : Int) (hk : k < 9) :
    ∃ c, init_vdiv_index (profile k) = some c ∧
      vdiv_reg.get? ((profile k).vdivs.length - 1) = some c ∧
      (profile k).vdivs.length ≤ c ∧
      fx2adc_init_hardware r (idle_session (profile k)) = none := by
  interval_cases k
  all_goals first
    | exact ⟨10, rfl, rfl, by decide, rfl⟩
    | exact ⟨12, rfl, rfl, by decide, rfl⟩
    | exact ⟨14, rfl, rfl, by decide, rfl⟩

theorem fx2adc_init_hardware_reads_outside_witness :
    (0 : Nat) < 9 ∧
    ∃ c, init_vdiv_index (profile 0) = some c ∧
      vdiv_reg.get? ((profile 0).vdivs.length - 1) = some c ∧
      (profile 0).vdivs.length ≤ c ∧
      fx2adc_init_hardware 1 (idle_session (profile 0)) = none :=
  ⟨by decide, fx2adc_init_hardware_reads_outside 0 1 (by decide)⟩

/-- C20, evaluated at two failing runs. First run, index 1: the first pass
finds the unconfigured device as second match and uploads firmware; in the
second pass that device is absent and the pass ends with `device_count` 1; in
the third pass the count goes on from 1, so the device at position 0, the first
match of that pass, is selected and opened, not the second match at position
1. Second run, index 4294967295: `device_count - 1` wraps to the index before
any match, and the device at position 0 is selected although it does not match
the catalog. -/
theorem fx2adc_open_selects_wrong_device :
    fx2adc_open_loop
        (open_env [[hantek_configured, hantek_unconfigured], [hantek_configured],
          [hantek_configured, hantek_configured]]) 1 =
      some (OpenOutcome.opened 0 (some 0),
        [OpenEvent.pass (some 1) (some 0), OpenEvent.upload 0, OpenEvent.pass none (some 0),
         OpenEvent.sleep, OpenEvent.pass (some 0) (some 0)]) ∧
    matching_positions [hantek_configured, hantek_configured] = [0, 1] ∧
    fx2adc_open_loop (open_env [[root_hub]]) 4294967295 =
      some (OpenOutcome.null_deref, [OpenEvent.pass (some 0) none]) ∧
    matching_positions [root_hub] = [] := by
  decide

/-- A root hub matches no catalog entry. -/
theorem find_known_device_root_hub :
    find_known_device root_hub.idVendor root_hub.idProduct root_hub.bcdDevice = none := by
  decide

/-- A pass over a bus that lists only a root hub finds no device. -/
theorem scan_bus_root_hub (st : OpenState) (hc : st.device_count = 0) :
    scan_bus 0 [root_hub] 0 st = { st with device := none, devinfo := none } := by
  unfold scan_bus
  simp only [find_known_device_root_hub, hc]
  rfl

/-- After the upload, a pass that found no device sleeps and starts another
pass with the retry counter as it was. -/
theorem open_after_scan_absent (env : OpenEnv) (st : OpenState) (log : List OpenEvent)
    (hd : st.device = none) (hw : st.wait_for_reenumeration = 1) :
    open_after_scan env st log = PassResult.again st (log ++ [OpenEvent.sleep]) := by
  unfold open_after_scan
  rw [hd]
  simp only [hw]
  rfl

/-- A whole pass over a bus that lists only a root hub, after the upload. -/
theorem open_pass_root_hub (env : OpenEnv) (st : OpenState) (log : List OpenEvent)
    (hw : st.wait_for_reenumeration = 1) (hc : st.device_count = 0) :
    open_pass env 0 [root_hub] st log =
      PassResult.again { st with device := none, devinfo := none }
        (log ++ [OpenEvent.pass none none] ++ [OpenEvent.sleep]) := by
  unfold open_pass
  rw [scan_bus_root_hub st hc]
  exact open_after_scan_absent env _ _ rfl hw

/-- However many passes list only a root hub, the loop is still running after
them. -/
theorem open_loop_absent (env : OpenEnv) (n : Nat) (st : OpenState) (log : List OpenEvent)
    (hw : st.wait_for_reenumeration = 1) (hc : st.device_count = 0) :
    open_loop env 0 (List.replicate n [root_hub]) st log = none := by
  induction n generalizing st log with
  | zero => rfl
  | succ n ih =>
    rw [List.replicate_succ, open_loop, open_pass_root_hub env st log hw hc]
    exact ih _ _ hw hc

/-- The first pass finds the unconfigured device and uploads the firmware. -/
theorem open_pass_upload (env : OpenEnv) (hu : env.upload = 0) :
    open_pass env 0 [root_hub, hantek_unconfigured]
      { device := none, devinfo := none, device_count := 0, wait_for_reenumeration := 0,
        is_configured := false } [] =
      PassResult.again
        { device := some 1, devinfo := some 0, device_count := 0, wait_for_reenumeration := 1,
          is_configured := false }
        [OpenEvent.pass (some 1) (some 0), OpenEvent.upload 0] := by
  have hscan : scan_bus 0 [root_hub, hantek_unconfigured] 0
      { device := none, devinfo := none, device_count := 0, wait_for_reenumeration := 0,
        is_configured := false } =
      { device := some 1, devinfo := some 0, device_count := 1, wait_for_reenumeration := 0,
        is_configured := false } := by decide
  unfold open_pass
  rw [hscan]
  unfold open_after_scan
  simp only [hu]
  rfl

/-- C21, evaluated at the failing runs: after the firmware upload, as long as
the device stays absent from the bus (here for any number `n` of further
passes that list only a root hub) the loop sleeps and tries again without
counting the retry, so it is still running when the script ends: it never
returns. -/
theorem fx2adc_open_waits_forever (n : Nat) :
    fx2adc_open_loop (open_env ([root_hub, hantek_unconfigured] :: List.replicate n [root_hub])) 0
      = none := by
  unfold fx2adc_open_loop
  show open_loop _ 0 ([root_hub, hantek_unconfigured] :: List.replicate n [root_hub]) _ _ = none
  rw [open_loop, open_pass_upload _ rfl]
  exact open_loop_absent _ n _ _ rfl rfl

/-! ## Firmware upload -/

/-- The chunk taken with the size `min(remaining, FW_CHUNKSIZE)` is the next
4096 bytes of the image, or what is left of it. -/
theorem take_min_drop (fw : List Nat) (o : Nat) :
    (fw.drop o).take (min (fw.length - o) FW_CHUNKSIZE) = (fw.drop o).take 4096 := by
  have hl : (fw.drop o).length = fw.length - o := List.length_drop o fw
  by_cases h : fw.length - o ≤ 4096
  · rw [Nat.min_eq_left (by simpa [FW_CHUNKSIZE] using h)]
    rw [List.take_of_length_le (by omega), List.take_of_length_le (by omega)]
  · rw [Nat.min_eq_right (by simp [FW_CHUNKSIZE]; omega)]
    rfl

/-- The loop of `ezusb_install_firmware` from chunk `j` on, with enough
iterations left: it returns, having appended the chunks `j .. m-1`; either
every write was accepted and `m` is the chunk count, or write `m-1` is the
first refused one and the result is -1. -/
theorem install_loop_run (xfer : Nat → Int) (fw : List Nat) (hmax : fw.length ≤ 65536) :
    ∀ (fuel j : Nat) (log : List ControlWrite), log.length = j → j ≤ chunk_count fw.length →
      chunk_count fw.length < fuel + j →
      ∃ (r : Int) (m : Nat), j ≤ m ∧ m ≤ chunk_count fw.length ∧
        install_loop xfer fw fw.length fuel (min (4096 * j) fw.length) log =
          some (r, log ++ (List.range' j (m - j)).map (firmware_chunk fw)) ∧
        ((r = 0 ∧ m = chunk_count fw.length ∧
            ∀ i, j ≤ i → i < chunk_count fw.length → 0 ≤ xfer i) ∨
         (r = -1 ∧ ∃ k, m = k + 1 ∧ j ≤ k ∧ k < chunk_count fw.length ∧ xfer k < 0 ∧
            ∀ i, j ≤ i → i < k → 0 ≤ xfer i)) := by
  intro fuel
  induction fuel with
  | zero =>
    intro j log _ hj hf
    omega
  | succ fuel ih =>
    intro j log hlog hj hf
    have hn : chunk_count fw.length = (fw.length + 4095) / 4096 := rfl
    unfold install_loop
    by_cases hlt : 4096 * j < fw.length
    · have hoff : min (4096 * j) fw.length = 4096 * j := Nat.min_eq_left (le_of_lt hlt)
      have hj16 : j < 16 := by omega
      have hchunk : ControlWrite.mk (4096 * j % 65536)
            ((fw.drop (4096 * j)).take (min (fw.length - 4096 * j) FW_CHUNKSIZE)) =
            firmware_chunk fw j := by
        unfold firmware_chunk
        rw [take_min_drop, Nat.mod_eq_of_lt (by omega)]
      rw [hoff, if_pos hlt]
      simp only [hchunk, hlog]
      by_cases hx : xfer j < 0
      · rw [if_pos hx]
        refine ⟨-1, j + 1, by omega, by omega, ?_, Or.inr ⟨rfl, j, rfl, le_refl j, by omega, hx,
          fun i h1 h2 => by omega⟩⟩
        simp
      · rw [if_neg hx]
        have hnext : 4096 * j + min (fw.length - 4096 * j) FW_CHUNKSIZE =
            min (4096 * (j + 1)) fw.length := by
          unfold FW_CHUNKSIZE
          omega
        rw [hnext]
        obtain ⟨r, m, hm1, hm2, hrun, hcase⟩ :=
          ih (j + 1) (log ++ [firmware_chunk fw j]) (by simp [hlog]) (by omega) (by omega)
        refine ⟨r, m, by omega, hm2, ?_, ?_⟩
        · rw [hrun]
          have hr : List.range' j (m - j) = j :: List.range' (j + 1) (m - (j + 1)) := by
            have : m - j = (m - (j + 1)) + 1 := by omega
            rw [this, List.range'_succ]
          rw [hr]
          simp
        · rcases hcase with ⟨h0, hmn, hall⟩ | ⟨h1, k, hk, hjk, hkn, hxk, hall⟩
          · refine Or.inl ⟨h0, hmn, fun i h1 h2 => ?_⟩
            by_cases hij : i = j
            · subst hij; omega
            · exact hall i (by omega) h2
          · refine Or.inr ⟨h1, k, hk, by omega, hkn, hxk, fun i h1 h2 => ?_⟩
            by_cases hij : i = j
            · subst hij; omega
            · exact hall i (by omega) h2
    · have hoff : min (4096 * j) fw.length = fw.length := Nat.min_eq_right (by omega)
      rw [hoff, if_neg (lt_irrefl _)]
      refine ⟨0, j, le_refl j, hj, by simp, Or.inl ⟨rfl, by omega, fun i h1 h2 => by omega⟩⟩


/-- The data of the first `m` chunks, put together, is the first `4096 * m`
bytes of the image. -/
theorem firmware_chunks_join (l : List Nat) (m : Nat) :
    ((List.range m).map (fun k => (firmware_chunk l k).data)).flatten = l.take (4096 * m) := by
  induction m with
  | zero => simp
  | succ m ih =>
    rw [List.range_succ, List.map_append, List.flatten_append, ih]
    simp only [List.map_cons, List.map_nil, List.flatten_cons, List.flatten_nil,
      List.append_nil, firmware_chunk]
    rw [Nat.mul_succ, List.take_add]

/-- The length of chunk `k` is `min(4096, L - 4096 * k)`. -/
theorem firmware_chunk_length (l : List Nat) (k : Nat) :
    (firmware_chunk l k).data.length = min 4096 (l.length - 4096 * k) := by
  simp [firmware_chunk, List.length_take, List.length_drop]

/-- The run of `ezusb_install_firmware` on a readable file of at most 65536
bytes: an initial part of the chunk list was written, all of it with return code 0
when every write is accepted, the chunks up to the first refused one with
return code -1 otherwise. -/
theorem ezusb_install_firmware_run (xfer : Nat → Int) (image : List Nat)
    (hmax : image.length ≤ 65536) :
    ∃ (r : Int) (m : Nat), m ≤ chunk_count image.length ∧
      ezusb_install_firmware xfer (some (firmware_file image)) =
        some (r, (List.range m).map (firmware_chunk image)) ∧
      ((r = 0 ∧ m = chunk_count image.length ∧
          ∀ i, i < chunk_count image.length → 0 ≤ xfer i) ∨
       (r = -1 ∧ ∃ k, m = k + 1 ∧ k < chunk_count image.length ∧ xfer k < 0 ∧
          ∀ i, i < k → 0 ≤ xfer i)) := by
  have hload : firmware_file_load (some (firmware_file image)) (2 ^ 16) =
      some (image, image.length) := by
    simp only [firmware_file_load, firmware_file]
    rw [if_neg (by norm_num; omega)]
    simp
  obtain ⟨r, m, _, hm, hrun, hcase⟩ :=
    install_loop_run xfer image hmax (image.length + 1) 0 [] rfl (Nat.zero_le _)
      (by unfold chunk_count; omega)
  refine ⟨r, m, hm, ?_, ?_⟩
  · unfold ezusb_install_firmware
    rw [hload]
    simp only
    have h0 : min (4096 * 0) image.length = 0 := by simp
    rw [h0] at hrun
    rw [hrun, List.range_eq_range']
    simp
  · rcases hcase with ⟨h0, hmn, hall⟩ | ⟨h1, k, hk, _, hkn, hxk, hall⟩
    · exact Or.inl ⟨h0, hmn, fun i hi => hall i (Nat.zero_le _) hi⟩
    · exact Or.inr ⟨h1, k, hk, hkn, hxk, fun i hi => hall i (Nat.zero_le _) hi⟩

/-- C22: for every image of length `L ≤ 65536` and a transport that accepts
every write, `ezusb_install_firmware` returns 0 after exactly
`ceil(L / 4096)` control writes (so the loop terminates), the `k`-th at offset
`4096 * k` carrying the `min(4096, L - 4096 * k)` bytes of the image from that
offset on; the chunks put together in order are the image itself (contiguous,
no overlap, exact cover); `L = 65536` gives 16 chunks of 4096 bytes and
`L = 100` one chunk of 100 bytes at offset 0. -/
theorem ezusb_install_firmware_chunks (xfer : Nat → Int) (image : List Nat)
    (hmax : image.length ≤ 65536) (hok : ∀ k, 0 ≤ xfer k) :
    ezusb_install_firmware xfer (some (firmware_file image)) =
      some (0, (List.range (chunk_count image.length)).map (firmware_chunk image)) ∧
    (∀ k, k < chunk_count image.length →
      (firmware_chunk image k).wValue = 4096 * k ∧
      (firmware_chunk image k).data = (image.drop (4096 * k)).take 4096 ∧
      (firmware_chunk image k).data.length = min 4096 (image.length - 4096 * k)) ∧
    ((List.range (chunk_count image.length)).map
      (fun k => (firmware_chunk image k).data)).flatten = image ∧
    (image.length = 65536 → chunk_count image.length = 16 ∧
      ∀ k, k < 16 → (firmware_chunk image k).data.length = 4096) ∧
    (image.length = 100 → chunk_count image.length = 1 ∧
      (firmware_chunk image 0).wValue = 0 ∧ (firmware_chunk image 0).data.length = 100) := by
  refine ⟨?_, ?_, ?_, ?_, ?_⟩
  · obtain ⟨r, m, _, hrun, hcase⟩ := ezusb_install_firmware_run xfer image hmax
    rcases hcase with ⟨h0, hmn, _⟩ | ⟨_, k, _, _, hxk, _⟩
    · rw [hrun, h0, hmn]
    · exact absurd (hok k) (not_le.mpr hxk)
  · intro k _
    exact ⟨rfl, rfl, firmware_chunk_length image k⟩
  · rw [firmware_chunks_join]
    exact List.take_of_length_le (by unfold chunk_count; omega)
  · intro h
    refine ⟨by rw [h]; rfl, fun k hk => ?_⟩
    rw [firmware_chunk_length, h]
    omega
  · intro h
    refine ⟨by rw [h]; rfl, rfl, ?_⟩
    rw [firmware_chunk_length, h]
    rfl

theorem ezusb_install_firmware_chunks_witness :
    (List.replicate 5000 0xff).length ≤ 65536 ∧
    ezusb_install_firmware (fun _ => 4096) (some (firmware_file (List.replicate 5000 0xff))) =
      some (0, (List.range (chunk_count (List.replicate 5000 0xff).length)).map
        (firmware_chunk (List.replicate 5000 0xff))) :=
  ⟨by rw [List.length_replicate]; norm_num,
    (ezusb_install_firmware_chunks (fun _ => 4096) (List.replicate 5000 0xff)
      (by rw [List.length_replicate]; norm_num) (fun _ => by norm_num)).1⟩

/-- C23: a firmware file is rejected by `firmware_file_load`, and
`ezusb_install_firmware` returns -1 with no control write, exactly when its
size exceeds 65536 bytes; for every accepted size the call returns and the
`i`-th write it issued has the offset `4096 * i ≤ 61440` in its 16-bit value
field, which the reduction modulo 2^16 leaves as it is. -/
theorem firmware_size_limit (xfer : Nat → Int) (image : List Nat) :
    (firmware_file_load (some (firmware_file image)) (2 ^ 16) = none ↔ 65536 < image.length) ∧
    (ezusb_install_firmware xfer (some (firmware_file image)) = some (-1, []) ↔
      65536 < image.length) ∧
    (image.length ≤ 65536 →
      ∃ r log, ezusb_install_firmware xfer (some (firmware_file image)) = some (r, log) ∧
        ∀ i, i < log.length →
          (log.getD i (firmware_chunk image 0)).wValue = 4096 * i ∧ 4096 * i ≤ 61440 ∧
          4096 * i % 65536 = 4096 * i) := by
  have hload : firmware_file_load (some (firmware_file image)) (2 ^ 16) = none ↔
      65536 < image.length := by
    simp only [firmware_file_load, firmware_file]
    by_cases h : image.length > 2 ^ 16
    · rw [if_pos h]
      simp only [true_iff]
      norm_num at h
      exact h
    · rw [if_neg h]
      norm_num at h
      simp
      omega
  have hsmall : image.length ≤ 65536 →
      ∃ r log, ezusb_install_firmware xfer (some (firmware_file image)) = some (r, log) ∧
        (r = -1 → log ≠ []) ∧
        ∀ i, i < log.length →
          (log.getD i (firmware_chunk image 0)).wValue = 4096 * i ∧ 4096 * i ≤ 61440 ∧
          4096 * i % 65536 = 4096 * i := by
    intro hmax
    obtain ⟨r, m, hm, hrun, hcase⟩ := ezusb_install_firmware_run xfer image hmax
    refine ⟨r, _, hrun, ?_, ?_⟩
    · intro hr
      rcases hcase with ⟨h0, _, _⟩ | ⟨_, k, hk, _, _, _⟩
      · rw [h0] at hr
        exact absurd hr (by decide)
      · rw [hk, List.range_succ]
        simp
    · intro i hi
      have him : i < m := by simpa using hi
      have hi16 : i < 16 := by unfold chunk_count at hm; omega
      have hget : ((List.range m).map (firmware_chunk image)).getD i (firmware_chunk image 0) =
          firmware_chunk image i := by
        rw [List.getD_eq_getElem?_getD, List.getElem?_map, List.getElem?_range him]
        rfl
      rw [hget]
      exact ⟨rfl, by omega, by omega⟩
  refine ⟨hload, ?_, ?_⟩
  · constructor
    · intro h
      by_contra hle
      obtain ⟨r, log, hrun, hne, _⟩ := hsmall (by omega)
      rw [hrun] at h
      simp only [Option.some.injEq, Prod.mk.injEq] at h
      exact hne h.1 h.2
    · intro h
      unfold ezusb_install_firmware
      rw [hload.mpr h]
  · intro hmax
    obtain ⟨r, log, hrun, _, hall⟩ := hsmall hmax
    exact ⟨r, log, hrun, hall⟩

theorem firmware_size_limit_witness :
    (List.replicate 100 0).length ≤ 65536 ∧
    ∃ r log, ezusb_install_firmware (fun _ => 100) (some (firmware_file (List.replicate 100 0)))
        = some (r, log) ∧
      ∀ i, i < log.length →
        (log.getD i (firmware_chunk (List.replicate 100 0) 0)).wValue = 4096 * i ∧
        4096 * i ≤ 61440 ∧ 4096 * i % 65536 = 4096 * i :=
  ⟨by rw [List.length_replicate]; norm_num,
    (firmware_size_limit (fun _ => 100) (List.replicate 100 0)).2.2
      (by rw [List.length_replicate]; norm_num)⟩

/-- C24: if the control write for chunk `k` is the first one the transport
refuses (negative result), `ezusb_install_firmware` returns -1 with exactly
the `k + 1` writes for the chunks `0 .. k` issued and none for a later chunk,
and `ezusb_upload_firmware` on the same file and transport returns -1. -/
theorem ezusb_install_firmware_first_failure (xfer : Nat → Int) (image : List Nat) (k : Nat)
    (hmax : image.length ≤ 65536) (hk : k < chunk_count image.length) (hfail : xfer k < 0)
    (hbefore : ∀ i, i < k → 0 ≤ xfer i) :
    ezusb_install_firmware xfer (some (firmware_file image)) =
      some (-1, (List.range (k + 1)).map (firmware_chunk image)) ∧
    ∀ env : UploadEnv, env.xfer = xfer → env.file = some (firmware_file image) →
      (ezusb_upload_firmware env).map Prod.fst = some (-1) := by
  have hinst : ezusb_install_firmware xfer (some (firmware_file image)) =
      some (-1, (List.range (k + 1)).map (firmware_chunk image)) := by
    obtain ⟨r, m, _, hrun, hcase⟩ := ezusb_install_firmware_run xfer image hmax
    rcases hcase with ⟨_, _, hall⟩ | ⟨h1, k2, hk2, hk2n, hxk2, hall2⟩
    · exact absurd (hall k hk) (not_le.mpr hfail)
    · have hkk : k2 = k := by
        rcases Nat.lt_trichotomy k2 k with h | h | h
        · exact absurd (hbefore k2 h) (not_le.mpr hxk2)
        · exact h
        · exact absurd (hall2 k h) (not_le.mpr hfail)
      rw [hrun, h1, hk2, hkk]
  refine ⟨hinst, ?_⟩
  intro env hx hf
  unfold ezusb_upload_firmware
  rw [hx, hf, hinst]
  split_ifs <;> simp

theorem ezusb_install_firmware_first_failure_witness :
    (List.replicate 10000 0).length ≤ 65536 ∧
    ezusb_install_firmware (fun i => if i = 1 then -7 else 4096)
        (some (firmware_file (List.replicate 10000 0))) =
      some (-1, (List.range 2).map (firmware_chunk (List.replicate 10000 0))) :=
  ⟨by rw [List.length_replicate]; norm_num,
    (ezusb_install_firmware_first_failure (fun i => if i = 1 then -7 else 4096)
    (List.replicate 10000 0) 1 (by rw [List.length_replicate]; norm_num)
    (by rw [List.length_replicate]; decide) (by decide)
    (fun i hi => by
      have : i = 0 := by omega
      subst this
      decide)).1⟩

/-! ## Enumeration helpers -/

/-- The matched devices of a bus list, one device at a time. -/
theorem known_devices_cons (d : bus_device) (bus : List bus_device) :
    known_devices (d :: bus) =
      if is_known d.dd then d :: known_devices bus else known_devices bus := by
  unfold known_devices
  rw [List.filter_cons]

/-- There are at most as many matched devices as devices. -/
theorem known_devices_length_le (bus : List bus_device) :
    (known_devices bus).length ≤ bus.length :=
  List.length_filter_le _ _

/-- The counting loop adds the number of matched devices when the counter
does not wrap. -/
theorem device_count_foldl (bus : List bus_device) (c : Nat)
    (h : c + (known_devices bus).length < 4294967296) :
    bus.foldl (fun device_count d =>
      if is_known d.dd then (device_count + 1) % 4294967296 else device_count) c =
      c + (known_devices bus).length := by
  induction bus generalizing c with
  | nil => simp [known_devices]
  | cons d bus ih =>
    rw [known_devices_cons] at h ⊢
    rw [List.foldl_cons]
    by_cases hk : is_known d.dd = true
    · rw [if_pos hk] at h ⊢
      rw [if_pos hk]
      simp only [List.length_cons] at h ⊢
      rw [Nat.mod_eq_of_lt (by omega), ih (c + 1) (by omega)]
      omega
    · rw [if_neg hk] at h ⊢
      rw [if_neg hk]
      exact ih c h

/-- On a bus list of fewer than 2^32 devices `fx2adc_get_device_count` is the
number of matched devices. -/
theorem fx2adc_get_device_count_eq (bus : List bus_device) (h : bus.length < 4294967296) :
    fx2adc_get_device_count bus = (known_devices bus).length := by
  have hk := known_devices_length_le bus
  unfold fx2adc_get_device_count
  rw [device_count_foldl bus 0 (by omega)]
  omega

/-- The loop of `fx2adc_get_device_usb_strings` reaches the matched device
number `index` and reads its strings when it can be opened. -/
theorem device_usb_strings_loop_known (index : Nat) (bus : List bus_device) :
    ∀ (c : Nat) (st : Int × String) (d : bus_device), c ≤ index →
      c + (known_devices bus).length < 4294967296 →
      (known_devices bus)[index - c]? = some d →
      device_usb_strings_loop index bus c st =
        if d.open_r = 0 then fx2adc_get_usb_strings_serial d st.2 else (d.open_r, st.2) := by
  induction bus with
  | nil =>
    intro c st d _ _ hd
    simp [known_devices] at hd
  | cons d0 bus ih =>
    intro c st d hc hlen hd
    rw [known_devices_cons] at hlen hd
    unfold device_usb_strings_loop
    by_cases hk : is_known d0.dd = true
    · rw [if_pos hk] at hlen hd
      rw [if_pos hk]
      simp only [List.length_cons] at hlen
      have hmod : ((c + 1) % 4294967296 + 4294967296 - 1) % 4294967296 = c := by omega
      have hmod1 : (c + 1) % 4294967296 = c + 1 := by omega
      rw [hmod, hmod1]
      by_cases hic : index = c
      · rw [if_pos hic]
        subst hic
        simp only [Nat.sub_self, List.getElem?_cons_zero, Option.some.injEq] at hd
        rw [hd]
      · rw [if_neg hic]
        have hsub : index - c = (index - (c + 1)) + 1 := by omega
        rw [hsub, List.getElem?_cons_succ] at hd
        exact ih (c + 1) st d (by omega) (by omega) hd
    · rw [if_neg hk] at hlen hd
      rw [if_neg hk]
      exact ih c st d hc hlen hd

/-- The test of the loop of `fx2adc_get_index_by_serial` on the matched
device number `i` succeeds exactly when `serial_matches` holds for it. -/
theorem usb_strings_matches (bus : List bus_device) (serial str : String) (i : Nat)
    (d : bus_device) (hbus : bus.length < 4294967296)
    (hd : (known_devices bus)[i]? = some d) :
    ((fx2adc_get_device_usb_strings bus i str).1 = 0 ∧
      serial = (fx2adc_get_device_usb_strings bus i str).2) ↔ serial_matches serial d = true := by
  have hk := known_devices_length_le bus
  unfold fx2adc_get_device_usb_strings
  rw [device_usb_strings_loop_known i bus 0 (0, str) d (Nat.zero_le _) (by omega)
    (by simpa using hd)]
  unfold serial_matches fx2adc_get_usb_strings_serial
  by_cases ho : d.open_r = 0
  · rw [if_pos ho]
    by_cases hdesc : d.descriptor_r < 0
    · rw [if_pos hdesc]
      simp [ho]
      omega
    · rw [if_neg hdesc]
      simp [ho]
      constructor
      · intro h
        exact ⟨by omega, h.symm⟩
      · intro h
        exact h.2.symm
  · rw [if_neg ho]
    simp [ho]

/-- The loop of `fx2adc_get_index_by_serial` from index `i` on: -3 when no
later matched device passes the test, the first one that passes otherwise. -/
theorem index_by_serial_loop_spec (bus : List bus_device) (serial : String)
    (hbus : bus.length < 4294967296) :
    ∀ (n i : Nat) (str : String), i + n = (known_devices bus).length →
      ((∀ j e, i ≤ j → (known_devices bus)[j]? = some e → serial_matches serial e = false) →
        index_by_serial_loop bus serial n i str = -3) ∧
      (∀ p d, i ≤ p → (known_devices bus)[p]? = some d → serial_matches serial d = true →
        (∀ j e, i ≤ j → j < p → (known_devices bus)[j]? = some e →
          serial_matches serial e = false) →
        index_by_serial_loop bus serial n i str = (p : Int)) := by
  intro n
  induction n with
  | zero =>
    intro i str hn
    refine ⟨fun _ => rfl, ?_⟩
    intro p d hip hd _ _
    have hlt : p < (known_devices bus).length := by
      by_contra hge
      rw [List.getElem?_eq_none (by omega)] at hd
      cases hd
    omega
  | succ n ih =>
    intro i str hn
    have hi : i < (known_devices bus).length := by omega
    obtain ⟨d0, hd0⟩ : ∃ d0, (known_devices bus)[i]? = some d0 :=
      ⟨_, List.getElem?_eq_getElem hi⟩
    have hiff := usb_strings_matches bus serial str i d0 hbus hd0
    obtain ⟨ih1, ih2⟩ := ih (i + 1) (fx2adc_get_device_usb_strings bus i str).2 (by omega)
    unfold index_by_serial_loop
    constructor
    · intro hall
      have hno : ¬ ((fx2adc_get_device_usb_strings bus i str).1 = 0 ∧
          serial = (fx2adc_get_device_usb_strings bus i str).2) := by
        rw [hiff, hall i d0 (le_refl i) hd0]
        decide
      simp only [if_neg hno]
      exact ih1 (fun j e hj he => hall j e (by omega) he)
    · intro p d hip hd hm hfirst
      by_cases hpi : p = i
      · subst hpi
        have hdd : d0 = d := by
          rw [hd] at hd0
          exact (Option.some.inj hd0).symm
        subst hdd
        simp only [if_pos (hiff.mpr hm)]
      · have hno : ¬ ((fx2adc_get_device_usb_strings bus i str).1 = 0 ∧
            serial = (fx2adc_get_device_usb_strings bus i str).2) := by
          rw [hiff, hfirst i d0 (le_refl i) (by omega) hd0]
          decide
        simp only [if_neg hno]
        exact ih2 p d (by omega) hd hm (fun j e hj hjp he => hfirst j e (by omega) hjp he)

/-- C25, counterexample: on a bus with one configured 6022BE whose serial
string descriptor cannot be read, the request for the serial `""` returns
index 0, not -3: the result of reading the string descriptor is not checked,
and the zeroed buffer compares equal to the empty string. -/
theorem fx2adc_get_index_by_serial_unread_serial :
    fx2adc_get_index_by_serial [hantek_without_serial] (some "") "" = 0 ∧
    hantek_without_serial.serial = none ∧ is_known hantek_without_serial.dd = true := by
  decide

/-- The count of a bus list shorter than 2^31 as the `int` local `cnt`. -/
theorem device_count_cnt (bus : List bus_device) (hbus : bus.length < 2147483648) :
    wrap32 (fx2adc_get_device_count bus) = ((known_devices bus).length : Int) ∧
    (wrap32 (fx2adc_get_device_count bus)).toNat = (known_devices bus).length := by
  have hk := known_devices_length_le bus
  have hcount := fx2adc_get_device_count_eq bus (by omega)
  have h1 : wrap32 (fx2adc_get_device_count bus) = ((known_devices bus).length : Int) := by
    rw [hcount]
    unfold wrap32
    omega
  exact ⟨h1, by rw [h1]; exact Int.toNat_ofNat _⟩

/-- C25, amended: on a bus list of fewer than 2^31 devices that stays the
same during the call, `fx2adc_get_index_by_serial` returns -1 for `NULL`; -2
when no device matches the catalog; the smallest index `p` among the matched
devices that can be opened, whose device descriptor can be read and whose
serial buffer (the serial string, or the empty string when the string
descriptor cannot be read) equals `serial`; and -3 when matched devices are
present and none of them passes that test. -/
theorem fx2adc_get_index_by_serial_spec (bus : List bus_device) (serial str : String)
    (hbus : bus.length < 2147483648) :
    fx2adc_get_index_by_serial bus none str = -1 ∧
    (known_devices bus = [] → fx2adc_get_index_by_serial bus (some serial) str = -2) ∧
    (∀ (p : Nat) (d : bus_device), (known_devices bus)[p]? = some d →
      serial_matches serial d = true →
      (∀ (j : Nat) (e : bus_device), j < p → (known_devices bus)[j]? = some e →
        serial_matches serial e = false) →
      fx2adc_get_index_by_serial bus (some serial) str = (p : Int)) ∧
    (known_devices bus ≠ [] →
      (∀ (j : Nat) (e : bus_device), (known_devices bus)[j]? = some e →
        serial_matches serial e = false) →
      fx2adc_get_index_by_serial bus (some serial) str = -3) := by
  obtain ⟨hcnt, hcntn⟩ := device_count_cnt bus hbus
  obtain ⟨h1, h2⟩ := index_by_serial_loop_spec bus serial (by omega)
    (known_devices bus).length 0 str (by omega)
  refine ⟨rfl, ?_, ?_, ?_⟩
  · intro hnil
    unfold fx2adc_get_index_by_serial
    simp only [hcnt, hnil, List.length_nil, Nat.cast_zero, if_true]
  · intro p d hd hm hfirst
    have hlt : p < (known_devices bus).length := by
      by_contra hge
      rw [List.getElem?_eq_none (by omega)] at hd
      cases hd
    unfold fx2adc_get_index_by_serial
    simp only [hcntn]
    rw [if_neg (by rw [hcnt]; omega)]
    exact h2 p d (Nat.zero_le _) hd hm (fun j e _ hj he => hfirst j e hj he)
  · intro hne hall
    have hpos : 0 < (known_devices bus).length := List.length_pos.mpr hne
    unfold fx2adc_get_index_by_serial
    simp only [hcntn]
    rw [if_neg (by rw [hcnt]; omega)]
    exact h1 (fun j e _ he => hall j e he)

theorem fx2adc_get_index_by_serial_spec_witness :
    [hantek_without_serial, hantek_with_serial "A1", hantek_with_serial "A1"].length
      < 2147483648 ∧
    fx2adc_get_index_by_serial
      [hantek_without_serial, hantek_with_serial "A1", hantek_with_serial "A1"] (some "A1") ""
      = 1 := by
  refine ⟨by decide, ?_⟩
  exact (fx2adc_get_index_by_serial_spec
    [hantek_without_serial, hantek_with_serial "A1", hantek_with_serial "A1"] "A1" ""
    (by decide)).2.2.1 1 (hantek_with_serial "A1") (by decide) (by decide)
    (by
      intro j e hj he
      have hj0 : j = 0 := by omega
      subst hj0
      have : e = hantek_without_serial := by
        have h0 : (known_devices [hantek_without_serial, hantek_with_serial "A1",
            hantek_with_serial "A1"])[0]? = some hantek_without_serial := by decide
        rw [h0] at he
        exact (Option.some.inj he).symm
      subst this
      decide)

/-- C30, evaluated at the failing input: on a bus with one configured 6022BE,
which has one catalog-matched device, `fx2adc_get_device_name(1)` returns
"6022BE" and not the empty string: after the loop the local `device` still
holds the entry of the last device scanned. -/
theorem fx2adc_get_device_name_stale :
    fx2adc_get_device_name [hantek_configured] 1 = "6022BE" ∧
    (matching_positions [hantek_configured]).length = 1 := by
  decide

/-! ## Si5351 ratios and the reference calculator -/

/-- C27, evaluated at the failing input: for `Fclk = 84374998` and correction
0 the PLL fraction is `num = denom = 1041666` (with `mult = 26`, `div = 8`),
so `num < denom`, the constraint `b < c` of the comment, does not hold. -/
theorem si5351_Calc_improper_fraction :
    si5351_Calc 84374998 0 =
      some ({ mult := 26, num := 1041666, denom := 1041666 },
            { allowIntegerMode := 1, div := 8, num := 0, denom := 1, rdiv := SI5351_R_DIV_1 }) := by
  decide

/-- The configuration for an in-range request and correction 0, by branch. -/
theorem si5351_Calc_in_range (Fclk : Int) (h1 : 8000 ≤ Fclk) (h2 : Fclk ≤ 160000000) :
    ∃ F rdiv, 512000 ≤ F ∧ F ≤ 160000000 ∧ F = adjusted_target Fclk ∧
      si5351_Calc Fclk 0 = si5351_Calc_ratios F rdiv := by
  refine ⟨adjusted_target Fclk,
    (if Fclk < 1000000 then SI5351_R_DIV_64 else SI5351_R_DIV_1), ?_, ?_, rfl, ?_⟩
  · unfold adjusted_target; split_ifs <;> omega
  · unfold adjusted_target; split_ifs <;> omega
  · rw [si5351_Calc_zero_correction]
    have hc : max 8000 (min Fclk 160000000) = Fclk := by omega
    rw [hc]

/-- C28: for every `Fclk` in [8000, 160000000] and correction 0,
`si5351_Calc` returns a configuration whose PLL ratio
`N = mult + num/denom` lies in [24, 36] and whose output divider
`M = div + num/denom` lies in [8, 1800] or is exactly 4 or 6. -/
theorem si5351_Calc_ratio_ranges (Fclk : Int) (h1 : 8000 ≤ Fclk) (h2 : Fclk ≤ 160000000) :
    ∃ pll out, si5351_Calc Fclk 0 = some (pll, out) ∧
      24 ≤ pll_ratio pll ∧ pll_ratio pll ≤ 36 ∧
      ((8 ≤ out_ratio out ∧ out_ratio out ≤ 1800) ∨ out_ratio out = 4 ∨ out_ratio out = 6) := by
  obtain ⟨F, rdiv, hlo, hhi, _, hcalc⟩ := si5351_Calc_in_range Fclk h1 h2
  rw [hcalc]
  by_cases h : F < 81000000
  · rw [si5351_Calc_ratios_low F rdiv hlo h]
    have hF0 : (0 : Int) < F := by omega
    have ht0 : (0 : Int) < F / 1048576 + 1 := by omega
    have hm0 : 0 ≤ 900000000 % F := Int.emod_nonneg _ (ne_of_gt hF0)
    have hm1 : 900000000 % F < F := Int.emod_lt_of_pos _ hF0
    have hz0 : 1 ≤ F / (F / 1048576 + 1) := Int.le_ediv_of_mul_le ht0 (by omega)
    have hy0 : 0 ≤ 900000000 % F / (F / 1048576 + 1) := Int.ediv_nonneg hm0 (le_of_lt ht0)
    have hy1 : 900000000 % F / (F / 1048576 + 1) ≤ F / (F / 1048576 + 1) :=
      Int.ediv_le_ediv ht0 (le_of_lt hm1)
    have hx0 : 11 ≤ 900000000 / F := Int.le_ediv_of_mul_le hF0 (by omega)
    have hx1 : 900000000 / F < 1758 := Int.ediv_lt_of_lt_mul hF0 (by omega)
    refine ⟨_, _, rfl, ?_, ?_, Or.inl ⟨?_, ?_⟩⟩
    · norm_num [pll_ratio]
    · norm_num [pll_ratio]
    · simp only [out_ratio]
      have hq : (0 : ℚ) ≤ ((900000000 % F / (F / 1048576 + 1) : Int) : ℚ) /
          ((F / (F / 1048576 + 1) : Int) : ℚ) :=
        div_nonneg (by exact_mod_cast hy0) (by exact_mod_cast (by omega : (0:Int) ≤ F / (F / 1048576 + 1)))
      have hx : (11 : ℚ) ≤ ((900000000 / F : Int) : ℚ) := by exact_mod_cast hx0
      linarith
    · simp only [out_ratio]
      have hq : ((900000000 % F / (F / 1048576 + 1) : Int) : ℚ) /
          ((F / (F / 1048576 + 1) : Int) : ℚ) ≤ 1 := by
        rw [div_le_one (by exact_mod_cast (by omega : (0:Int) < F / (F / 1048576 + 1)))]
        exact_mod_cast hy1
      have hx : ((900000000 / F : Int) : ℚ) ≤ 1757 := by exact_mod_cast (by omega : 900000000 / F ≤ 1757)
      linarith
  · rw [si5351_Calc_ratios_high F rdiv (by omega) hhi]
    have hx : ∃ x : Int, x = (if F ≥ 150000000 then 4 else if F ≥ 100000000 then 6 else 8) ∧
        600000000 ≤ x * F ∧ x * F < 900000000 ∧ (x = 4 ∨ x = 6 ∨ x = 8) := by
      refine ⟨_, rfl, ?_, ?_, ?_⟩ <;> split_ifs <;> omega
    obtain ⟨x, hxe, hx0, hx1, hx468⟩ := hx
    rw [← hxe]
    have ha0 : 24 ≤ x * F / 25000000 := by omega
    have ha1 : x * F / 25000000 ≤ 35 := by omega
    have hb0 : 0 ≤ x * F % 25000000 / 24 := by omega
    have hb1 : x * F % 25000000 / 24 ≤ 1041666 := by omega
    refine ⟨_, _, rfl, ?_, ?_, ?_⟩
    · simp only [pll_ratio]
      have hq : (0 : ℚ) ≤ ((x * F % 25000000 / 24 : Int) : ℚ) / ((1041666 : Int) : ℚ) :=
        div_nonneg (by exact_mod_cast hb0) (by norm_num)
      have ha : (24 : ℚ) ≤ ((x * F / 25000000 : Int) : ℚ) := by exact_mod_cast ha0
      linarith
    · simp only [pll_ratio]
      have hq : ((x * F % 25000000 / 24 : Int) : ℚ) / ((1041666 : Int) : ℚ) ≤ 1 := by
        rw [div_le_one (by norm_num)]
        exact_mod_cast hb1
      have ha : ((x * F / 25000000 : Int) : ℚ) ≤ 35 := by exact_mod_cast ha1
      linarith
    · simp only [out_ratio]
      rcases hx468 with h4 | h6 | h8
      · right; left; rw [h4]; norm_num
      · right; right; rw [h6]; norm_num
      · left; rw [h8]; norm_num

theorem si5351_Calc_ratio_ranges_witness :
    (8000 : Int) ≤ 84374998 ∧ (84374998 : Int) ≤ 160000000 ∧
    ∃ pll out, si5351_Calc 84374998 0 = some (pll, out) ∧
      24 ≤ pll_ratio pll ∧ pll_ratio pll ≤ 36 ∧
      ((8 ≤ out_ratio out ∧ out_ratio out ≤ 1800) ∨ out_ratio out = 4 ∨ out_ratio out = 6) :=
  ⟨by decide, by decide, si5351_Calc_ratio_ranges 84374998 (by decide) (by decide)⟩

/-- The truncating quotient is no larger in absolute value than the
dividend. -/
theorem tdiv_abs_le (a b c : Int) (h1 : -c ≤ a) (h2 : a ≤ c) :
    -c ≤ Int.tdiv a b ∧ Int.tdiv a b ≤ c := by
  have h : (Int.tdiv a b).natAbs = a.natAbs / b.natAbs := Int.natAbs_tdiv a b
  have h2 : a.natAbs / b.natAbs ≤ a.natAbs := Nat.div_le_self _ _
  constructor <;> omega

/-- The truncating quotient by 100 of an `int32_t` value. -/
theorem tdiv_100_bounds (p : Int) (h1 : -2147483648 ≤ p) (h2 : p ≤ 2147483647) :
    -21474836 ≤ Int.tdiv p 100 ∧ Int.tdiv p 100 ≤ 21474836 := by
  have h : (Int.tdiv p 100).natAbs = p.natAbs / 100 := Int.natAbs_tdiv p 100
  constructor <;> omega

/-- The remainder of a dividend that is not negative lies between 0 and the
dividend. -/
theorem tmod_range (a b : Int) (ha : 0 ≤ a) : 0 ≤ Int.tmod a b ∧ Int.tmod a b ≤ a := by
  refine ⟨Int.tmod_nonneg b ha, ?_⟩
  have h := Int.tdiv_add_tmod a b
  have h2 : 0 ≤ b * Int.tdiv a b := by
    rcases le_total 0 b with hb | hb
    · exact mul_nonneg hb (Int.tdiv_nonneg ha hb)
    · have : Int.tdiv a b ≤ 0 := Int.tdiv_nonpos ha hb
      exact mul_nonneg_of_nonpos_of_nonpos hb this
  omega

/-- The checked quotient for any sign of the operands. -/
theorem i32_div_some (a b : Int) (hb : b ≠ 0) (h1 : -2147483647 ≤ a) (h2 : a ≤ 2147483647) :
    i32_div a b = some (Int.tdiv a b) := by
  obtain ⟨h3, h4⟩ := tdiv_abs_le a b 2147483647 h1 h2
  unfold i32_div
  rw [if_neg hb]
  exact i32_eq_some _ (by unfold INT32_MIN; omega) (by unfold INT32_MAX; omega)

/-- The checked remainder for any sign of the operands. -/
theorem i32_mod_some (a b : Int) (hb : b ≠ 0) (ha : -2147483647 ≤ a) :
    i32_mod a b = some (Int.tmod a b) := by
  unfold i32_mod
  rw [if_neg hb, if_neg (by unfold INT32_MIN; omega)]

/-- Both branches of the ratio computation for every corrected target that
can arise. -/
theorem si5351_Calc_ratios_general (adj : Int) (R : si5351RDiv_t) (hlo : -20962836 ≤ adj)
    (hhi : adj ≤ 181474836) :
    si5351_Calc_ratios adj R =
      if adj < 81000000 then
        if adj = 0 ∨ adj / 1048576 + 1 = 0 then none
        else
          some ({ mult := 36, num := 0, denom := 1 },
                { allowIntegerMode := 1, div := Int.tdiv 900000000 adj,
                  num := Int.tdiv (Int.tmod 900000000 adj) (adj / 1048576 + 1),
                  denom := Int.tdiv adj (adj / 1048576 + 1), rdiv := R })
      else
        some ({ mult := Int.tdiv ((if adj ≥ 150000000 then 4 else if adj ≥ 100000000 then 6
                  else 8) * adj) 25000000,
                num := Int.tdiv (Int.tmod ((if adj ≥ 150000000 then 4
                  else if adj ≥ 100000000 then 6 else 8) * adj) 25000000) 24,
                denom := 1041666 },
              { allowIntegerMode := 1,
                div := if adj ≥ 150000000 then 4 else if adj ≥ 100000000 then 6 else 8,
                num := 0, denom := 1, rdiv := R }) := by
  have hs : adj >>> (20 : Nat) = adj / 1048576 := by
    have h := Int.shiftRight_eq_div_pow adj 20
    norm_num at h
    exact h
  unfold si5351_Calc_ratios
  by_cases h : adj < 81000000
  · rw [if_pos h, if_pos h, hs]
    have e2 : i32 (adj / 1048576 + 1) = some (adj / 1048576 + 1) :=
      i32_eq_some _ (by unfold INT32_MIN; omega) (by unfold INT32_MAX; omega)
    by_cases h0 : adj = 0
    · rw [if_pos (Or.inl h0)]
      have e1 : i32_div 900000000 adj = none := by
        unfold i32_div
        rw [if_pos h0]
      simp only [e1, Option.bind_eq_bind, Option.none_bind, bind, Option.bind]
    · have e1 : i32_div 900000000 adj = some (Int.tdiv 900000000 adj) :=
        i32_div_some _ _ h0 (by norm_num) (by norm_num)
      have e3 : i32_mod 900000000 adj = some (Int.tmod 900000000 adj) :=
        i32_mod_some _ _ h0 (by norm_num)
      by_cases ht : adj / 1048576 + 1 = 0
      · rw [if_pos (Or.inr ht)]
        have e4 : i32_div (Int.tmod 900000000 adj) (adj / 1048576 + 1) = none := by
          unfold i32_div
          rw [if_pos ht]
        simp only [e1, e2, e3, e4, Option.bind_eq_bind, Option.some_bind, Option.none_bind,
          bind, Option.bind]
      · rw [if_neg (by rintro (h1 | h1); exact h0 h1; exact ht h1)]
        obtain ⟨hm0, hm1⟩ := tmod_range 900000000 adj (by norm_num)
        have e4 : i32_div (Int.tmod 900000000 adj) (adj / 1048576 + 1) =
            some (Int.tdiv (Int.tmod 900000000 adj) (adj / 1048576 + 1)) :=
          i32_div_some _ _ ht (by omega) (by omega)
        have e5 : i32_div adj (adj / 1048576 + 1) =
            some (Int.tdiv adj (adj / 1048576 + 1)) :=
          i32_div_some _ _ ht (by omega) (by omega)
        simp only [e1, e2, e3, e4, e5, Option.bind_eq_bind, Option.some_bind, bind,
          Option.bind, pure]
  · rw [if_neg h, if_neg h]
    have hx : ∃ x : Int, x = (if adj ≥ 150000000 then 4 else if adj ≥ 100000000 then 6 else 8) ∧
        600000000 ≤ x * adj ∧ x * adj ≤ 900000000 := by
      refine ⟨_, rfl, ?_, ?_⟩ <;> split_ifs <;> omega
    obtain ⟨x, hxe, hx0, hx1⟩ := hx
    rw [← hxe]
    have e1 : i32 (x * adj) = some (x * adj) :=
      i32_eq_some _ (by unfold INT32_MIN; omega) (by unfold INT32_MAX; omega)
    have e2 : i32_div (x * adj) 25000000 = some (Int.tdiv (x * adj) 25000000) :=
      i32_div_some _ _ (by norm_num) (by omega) (by omega)
    have e3 : i32 (((25000000 : Int) >>> (20 : Nat)) + 1) = some 24 := by decide
    have e4 : i32_mod (x * adj) 25000000 = some (Int.tmod (x * adj) 25000000) :=
      i32_mod_some _ _ (by norm_num) (by omega)
    obtain ⟨hm0, hm1⟩ := tmod_range (x * adj) 25000000 (by omega)
    have e5 : i32_div (Int.tmod (x * adj) 25000000) 24 =
        some (Int.tdiv (Int.tmod (x * adj) 25000000) 24) :=
      i32_div_some _ _ (by norm_num) (by omega) (by omega)
    have e6 : i32_div 25000000 24 = some 1041666 := by decide
    simp only [e1, e2, e3, e4, e5, e6, Option.bind_eq_bind, Option.some_bind, bind,
      Option.bind, pure]

/-- The steps of `si5351_Calc` after the scaling, for the scaled target `F1`. -/
theorem si5351_Calc_correction_steps (F1 k : Int) (R : si5351RDiv_t) (h1 : 512000 ≤ F1)
    (h2 : F1 ≤ 160000000) :
    (do
      let q ← i32_div F1 1000000
      let p ← i32 (q * k)
      let d ← i32_div p 100
      let Fclk2 ← i32 (F1 - d)
      si5351_Calc_ratios Fclk2 R) =
      if INT32_MIN ≤ Int.tdiv F1 1000000 * k ∧ Int.tdiv F1 1000000 * k ≤ INT32_MAX then
        si5351_Calc_ratios (F1 - Int.tdiv (Int.tdiv F1 1000000 * k) 100) R
      else none := by
  have e1 : i32_div F1 1000000 = some (Int.tdiv F1 1000000) :=
    i32_div_some _ _ (by norm_num) (by omega) (by omega)
  by_cases hp : INT32_MIN ≤ Int.tdiv F1 1000000 * k ∧ Int.tdiv F1 1000000 * k ≤ INT32_MAX
  · rw [if_pos hp]
    have e2 : i32 (Int.tdiv F1 1000000 * k) = some (Int.tdiv F1 1000000 * k) :=
      i32_eq_some _ hp.1 hp.2
    obtain ⟨hd0, hd1⟩ := tdiv_100_bounds (Int.tdiv F1 1000000 * k)
      (by have := hp.1; unfold INT32_MIN at this; exact this)
      (by have := hp.2; unfold INT32_MAX at this; exact this)
    have e3 : i32_div (Int.tdiv F1 1000000 * k) 100 =
        some (Int.tdiv (Int.tdiv F1 1000000 * k) 100) := by
      unfold i32_div
      rw [if_neg (by norm_num)]
      exact i32_eq_some _ (by unfold INT32_MIN; omega) (by unfold INT32_MAX; omega)
    have e4 : i32 (F1 - Int.tdiv (Int.tdiv F1 1000000 * k) 100) =
        some (F1 - Int.tdiv (Int.tdiv F1 1000000 * k) 100) :=
      i32_eq_some _ (by unfold INT32_MIN; omega) (by unfold INT32_MAX; omega)
    simp only [e1, e2, e3, e4, Option.bind_eq_bind, Option.some_bind, bind, Option.bind]
  · rw [if_neg hp]
    have e2 : i32 (Int.tdiv F1 1000000 * k) = none := by
      unfold i32
      rw [if_neg hp]
    simp only [e1, e2, Option.bind_eq_bind, Option.some_bind, Option.none_bind, bind,
      Option.bind]

/-- C26: for every request `Fclk` and correction `k`, in particular all
`int32_t` values, `si5351_Calc` equals the reference calculator whenever the
product `(F1 / 1000000) * k`, the one operation that can leave the `int32_t`
range, stays in range, and it has no defined result otherwise. Both have no
result where the corrected target or `t` is zero (division by zero). -/
theorem si5351_Calc_refines_reference (Fclk k : Int) :
    si5351_Calc Fclk k =
      if INT32_MIN ≤ correction_product Fclk k ∧ correction_product Fclk k ≤ INT32_MAX then
        si5351_Calc_reference Fclk k
      else none := by
  have hF0 : (if Fclk < 8000 then (8000 : Int) else if Fclk > 160000000 then 160000000
      else Fclk) = max 8000 (min Fclk 160000000) := by
    split_ifs <;> omega
  unfold si5351_Calc si5351_Calc_reference correction_product adjusted_target
  simp only [hF0]
  have hlo : (8000 : Int) ≤ max 8000 (min Fclk 160000000) := by omega
  have hhi : max 8000 (min Fclk 160000000) ≤ (160000000 : Int) := by omega
  generalize max 8000 (min Fclk 160000000) = F0 at hlo hhi ⊢
  by_cases h : F0 < 1000000
  · have e1 : i32 (64 * F0) = some (64 * F0) :=
      i32_eq_some _ (by unfold INT32_MIN; omega) (by unfold INT32_MAX; omega)
    have hc : F0 * 64 = 64 * F0 := by ring
    have hsteps := si5351_Calc_correction_steps (64 * F0) k SI5351_R_DIV_64 (by omega) (by omega)
    simp only [h, if_true, e1, hc, Option.bind_eq_bind, Option.some_bind, bind, Option.bind]
      at hsteps ⊢
    rw [hsteps]
    by_cases hp : INT32_MIN ≤ Int.tdiv (64 * F0) 1000000 * k ∧
        Int.tdiv (64 * F0) 1000000 * k ≤ INT32_MAX
    · rw [if_pos hp, if_pos hp]
      obtain ⟨hd0, hd1⟩ := tdiv_100_bounds (Int.tdiv (64 * F0) 1000000 * k)
        (by have := hp.1; unfold INT32_MIN at this; exact this)
        (by have := hp.2; unfold INT32_MAX at this; exact this)
      rw [si5351_Calc_ratios_general _ _ (by omega) (by omega)]
    · rw [if_neg hp, if_neg hp]
  · have hsteps := si5351_Calc_correction_steps F0 k SI5351_R_DIV_1 (by omega) (by omega)
    simp only [h, if_false, Option.bind_eq_bind, Option.some_bind, bind, Option.bind]
      at hsteps ⊢
    rw [hsteps]
    by_cases hp : INT32_MIN ≤ Int.tdiv F0 1000000 * k ∧ Int.tdiv F0 1000000 * k ≤ INT32_MAX
    · rw [if_pos hp, if_pos hp]
      obtain ⟨hd0, hd1⟩ := tdiv_100_bounds (Int.tdiv F0 1000000 * k)
        (by have := hp.1; unfold INT32_MIN at this; exact this)
        (by have := hp.2; unfold INT32_MAX at this; exact this)
      rw [si5351_Calc_ratios_general _ _ (by omega) (by omega)]
    · rw [if_neg hp, if_neg hp]

/-! ## Si5351 register parameters -/

/-- Masking with 0xff keeps the low byte. -/
theorem and_255 (x : Nat) : x &&& 0xff = x % 256 := by
  have h := Nat.and_pow_two_sub_one_eq_mod x 8
  norm_num at h
  exact h

/-- Masking with 0x3 keeps the low two bits. -/
theorem and_3 (x : Nat) : x &&& 0x3 = x % 4 := by
  have h := Nat.and_pow_two_sub_one_eq_mod x 2
  norm_num at h
  exact h

/-- Masking with 0x7 keeps the low three bits. -/
theorem and_7 (x : Nat) : x &&& 0x7 = x % 8 := by
  have h := Nat.and_pow_two_sub_one_eq_mod x 3
  norm_num at h
  exact h

/-- Masking with 0xf keeps the low nibble. -/
theorem and_15 (x : Nat) : x &&& 0xf = x % 16 := by
  have h := Nat.and_pow_two_sub_one_eq_mod x 4
  norm_num at h
  exact h

/-- Byte 3 of the block gives back bits 17-16 of `P1` and `divBy4`. -/
theorem byte3_fin : ∀ a : Fin 4, ∀ d : Fin 4, ∀ r : Fin 8,
    (a.val ||| (d.val <<< 2) ||| (r.val <<< 4)) % 256 % 4 = a.val ∧
    (a.val ||| (d.val <<< 2) ||| (r.val <<< 4)) % 256 / 4 % 4 = d.val := by
  decide

/-- Byte 6 of the block gives back bits 19-16 of `P3` and of `P2`. -/
theorem byte6_fin : ∀ x : Fin 256, ∀ h : Fin 16,
    ((x.val &&& 0xf0) ||| h.val) % 256 / 16 = x.val / 16 ∧
    ((x.val &&& 0xf0) ||| h.val) % 256 % 16 = h.val := by
  set_option maxRecDepth 100000 in decide

/-- The 32-bit pattern of a value that is not negative is the value. -/
theorem u32_of_nonneg (v : Int) (h0 : 0 ≤ v) (h1 : v < 4294967296) : u32 v = v.toNat := by
  unfold u32
  rw [Int.emod_eq_of_lt h0 h1]

/-- Reading the nine bytes back gives the parameters, when they fit their
fields. -/
theorem decode_writeBulk (baseaddr : Nat) (P1 P2 P3 : Int) (divBy4 rdiv : Nat)
    (h10 : 0 ≤ P1) (h11 : P1 < 262144) (h20 : 0 ≤ P2) (h21 : P2 < 1048576)
    (h30 : 0 ≤ P3) (h31 : P3 < 1048576) (hd : divBy4 < 4) :
    decode_params (si5351_writeBulk baseaddr P1 P2 P3 divBy4 rdiv) =
      (P1.toNat, P2.toNat, P3.toNat, divBy4) := by
  rw [si5351_writeBulk, u32_of_nonneg P1 h10 (by omega), u32_of_nonneg P2 h20 (by omega),
    u32_of_nonneg P3 h30 (by omega)]
  have hp1 : P1.toNat < 262144 := by omega
  have hp2 : P2.toNat < 1048576 := by omega
  have hp3 : P3.toNat < 1048576 := by omega
  generalize P1.toNat = p1 at hp1
  generalize P2.toNat = p2 at hp2
  generalize P3.toNat = p3 at hp3
  simp only [decode_params, List.getD_cons_succ, List.getD_cons_zero, and_255, and_3, and_7,
    and_15, Nat.shiftRight_eq_div_pow]
  have hb3 := byte3_fin ⟨p1 / 2 ^ 16 % 4, Nat.mod_lt _ (by decide)⟩
    ⟨divBy4 % 4, Nat.mod_lt _ (by decide)⟩ ⟨rdiv % 8, Nat.mod_lt _ (by decide)⟩
  have hb6 := byte6_fin ⟨p3 / 2 ^ 12, by omega⟩ ⟨p2 / 2 ^ 16 % 16, Nat.mod_lt _ (by decide)⟩
  simp only at hb3 hb6
  rw [hb3.1, hb3.2, hb6.1, hb6.2]
  refine Prod.ext ?_ (Prod.ext ?_ (Prod.ext ?_ ?_)) <;> simp only <;> omega

/-- A value in the `int32_t` range is its own checked value. -/
theorem i32_small (v : Int) (h1 : -2147483648 ≤ v) (h2 : v ≤ 2147483647) : i32 v = some v :=
  i32_eq_some v (by unfold INT32_MIN; exact h1) (by unfold INT32_MAX; exact h2)

/-- The checked operations shared by both setup functions succeed on operands
in range. -/
theorem setup_params_steps (mult num denom : Int) (hm0 : 0 ≤ mult) (hm1 : mult ≤ 1000000)
    (hn0 : 0 ≤ num) (hn1 : num ≤ 1048576) (hd : 0 < denom) :
    i32 (128 * mult) = some (128 * mult) ∧
    i32 (128 * num) = some (128 * num) ∧
    i32_div (128 * num) denom = some (128 * num / denom) ∧
    i32 (128 * mult + 128 * num / denom) = some (128 * mult + 128 * num / denom) ∧
    i32 (128 * mult + 128 * num / denom - 512) = some (128 * mult + 128 * num / denom - 512) ∧
    i32_mod (128 * num) denom = some (128 * num % denom) := by
  have hq0 : 0 ≤ 128 * num / denom := Int.ediv_nonneg (by omega) (le_of_lt hd)
  have hq1 : 128 * num / denom ≤ 128 * num := Int.ediv_le_self _ (by omega)
  exact ⟨i32_small _ (by omega) (by omega), i32_small _ (by omega) (by omega),
    i32_div_eq_some _ _ (by omega) (by unfold INT32_MAX; omega) hd,
    i32_small _ (by omega) (by omega), i32_small _ (by omega) (by omega),
    i32_mod_eq_some _ _ (by omega) hd⟩

/-- The parameters of `si5351_SetupPLL` in closed form. -/
theorem si5351_SetupPLL_params_eq (conf : si5351PLLConfig_t) (hm0 : 0 ≤ conf.mult)
    (hm1 : conf.mult ≤ 1000000) (hn0 : 0 ≤ conf.num) (hn1 : conf.num ≤ 1048576)
    (hd : 0 < conf.denom) :
    si5351_SetupPLL_params conf =
      some (128 * conf.mult + 128 * conf.num / conf.denom - 512,
        128 * conf.num % conf.denom, conf.denom) := by
  obtain ⟨e1, e2, e3, e4, e5, e6⟩ :=
    setup_params_steps conf.mult conf.num conf.denom hm0 hm1 hn0 hn1 hd
  unfold si5351_SetupPLL_params
  simp only [e1, e2, e3, e4, e5, e6, Option.bind_eq_bind, Option.some_bind, bind, Option.bind,
    pure]

/-- The parameters of `si5351_SetupOutput` in closed form, outside the
`div = 4` case. -/
theorem si5351_SetupOutput_params_eq (conf : si5351OutputConfig_t) (h4 : conf.div ≠ 4)
    (hm0 : 0 ≤ conf.div) (hm1 : conf.div ≤ 1000000) (hn0 : 0 ≤ conf.num)
    (hn1 : conf.num ≤ 1048576) (hd : 0 < conf.denom) :
    si5351_SetupOutput_params conf =
      some (128 * conf.div + 128 * conf.num / conf.denom - 512,
        128 * conf.num % conf.denom, conf.denom, 0) := by
  obtain ⟨e1, e2, e3, e4, e5, e6⟩ :=
    setup_params_steps conf.div conf.num conf.denom hm0 hm1 hn0 hn1 hd
  unfold si5351_SetupOutput_params
  rw [if_neg h4]
  simp only [e1, e2, e3, e4, e5, e6, Option.bind_eq_bind, Option.some_bind, bind, Option.bind,
    pure]

/-- Ranges of the parameters for a ratio with `4 ≤ mult ≤ 2000` and
`0 ≤ num ≤ denom < 2^20`. -/
theorem setup_params_bounds (mult num denom : Int) (hm0 : 4 ≤ mult) (hm1 : mult ≤ 2000)
    (hn0 : 0 ≤ num) (hn1 : num ≤ denom) (hd0 : 0 < denom) (hd1 : denom < 1048576) :
    0 ≤ 128 * mult + 128 * num / denom - 512 ∧ 128 * mult + 128 * num / denom - 512 < 262144 ∧
    0 ≤ 128 * num % denom ∧ 128 * num % denom < 1048576 ∧ 0 < denom ∧ denom < 1048576 ∧
    128 * num % denom < denom := by
  have hq0 : 0 ≤ 128 * num / denom := Int.ediv_nonneg (by omega) (le_of_lt hd0)
  have hq1 : 128 * num / denom ≤ 128 :=
    Int.ediv_le_of_le_mul hd0 (by omega)
  have hr0 : 0 ≤ 128 * num % denom := Int.emod_nonneg _ (ne_of_gt hd0)
  have hr1 : 128 * num % denom < denom := Int.emod_lt_of_pos _ hd0
  exact ⟨by omega, by omega, hr0, by omega, hd0, hd1, hr1⟩

/-- The parameters both setup functions derive from the result of
`si5351_Calc` for an in-range request, with their ranges. -/
theorem si5351_Calc_params (Fclk : Int) (h1 : 8000 ≤ Fclk) (h2 : Fclk ≤ 160000000) :
    ∃ pll out, si5351_Calc Fclk 0 = some (pll, out) ∧ out.allowIntegerMode = 1 ∧
      (∃ P1 P2 P3 : Int, si5351_SetupPLL_params pll = some (P1, P2, P3) ∧
        0 ≤ P1 ∧ P1 < 262144 ∧ 0 ≤ P2 ∧ P2 < 1048576 ∧ 0 < P3 ∧ P3 < 1048576 ∧ P2 < P3) ∧
      (∃ (P1 P2 P3 : Int) (divBy4 : Nat),
        si5351_SetupOutput_params out = some (P1, P2, P3, divBy4) ∧ divBy4 < 4 ∧
        0 ≤ P1 ∧ P1 < 262144 ∧ 0 ≤ P2 ∧ P2 < 1048576 ∧ 0 < P3 ∧ P3 < 1048576 ∧ P2 < P3) := by
  obtain ⟨F, r, hlo, hhi, _, hcalc⟩ := si5351_Calc_in_range Fclk h1 h2
  rw [hcalc]
  by_cases h : F < 81000000
  · rw [si5351_Calc_ratios_low F r hlo h]
    have hF0 : (0 : Int) < F := by omega
    have ht0 : (0 : Int) < F / 1048576 + 1 := by omega
    have hm0 : 0 ≤ 900000000 % F := Int.emod_nonneg _ (ne_of_gt hF0)
    have hm1 : 900000000 % F < F := Int.emod_lt_of_pos _ hF0
    have hz0 : 1 ≤ F / (F / 1048576 + 1) := Int.le_ediv_of_mul_le ht0 (by omega)
    have hz1 : F / (F / 1048576 + 1) < 1048576 := Int.ediv_lt_of_lt_mul ht0 (by omega)
    have hy0 : 0 ≤ 900000000 % F / (F / 1048576 + 1) := Int.ediv_nonneg hm0 (le_of_lt ht0)
    have hy1 : 900000000 % F / (F / 1048576 + 1) ≤ F / (F / 1048576 + 1) :=
      Int.ediv_le_ediv ht0 (le_of_lt hm1)
    have hx0 : 11 ≤ 900000000 / F := Int.le_ediv_of_mul_le hF0 (by omega)
    have hx1 : 900000000 / F < 1758 := Int.ediv_lt_of_lt_mul hF0 (by omega)
    refine ⟨_, _, rfl, rfl, ⟨_, _, _, si5351_SetupPLL_params_eq _ (by norm_num) (by norm_num)
      (by norm_num) (by norm_num) (by norm_num), ?_⟩,
      ⟨_, _, _, _, si5351_SetupOutput_params_eq _ (by show (900000000 / F : Int) ≠ 4; omega)
        (by show (0 : Int) ≤ 900000000 / F; omega)
        (by show (900000000 / F : Int) ≤ 1000000; omega) hy0
        (by show 900000000 % F / (F / 1048576 + 1) ≤ 1048576; omega)
        (by show (0 : Int) < F / (F / 1048576 + 1); omega), by norm_num, ?_⟩⟩
    · exact setup_params_bounds 36 0 1 (by norm_num) (by norm_num) (by norm_num) (by norm_num)
        (by norm_num) (by norm_num)
    · exact setup_params_bounds (900000000 / F) (900000000 % F / (F / 1048576 + 1))
        (F / (F / 1048576 + 1)) (by omega) (by omega) hy0 hy1 (by omega) hz1
  · rw [si5351_Calc_ratios_high F r (by omega) hhi]
    have hx : ∃ x : Int, x = (if F ≥ 150000000 then 4 else if F ≥ 100000000 then 6 else 8) ∧
        600000000 ≤ x * F ∧ x * F < 900000000 ∧ (x = 4 ∨ x = 6 ∨ x = 8) := by
      refine ⟨_, rfl, ?_, ?_, ?_⟩ <;> split_ifs <;> omega
    obtain ⟨x, hxe, hx0, hx1, hx468⟩ := hx
    rw [← hxe]
    have ha0 : 24 ≤ x * F / 25000000 := by omega
    have ha1 : x * F / 25000000 ≤ 35 := by omega
    have hb0 : 0 ≤ x * F % 25000000 / 24 := by omega
    have hb1 : x * F % 25000000 / 24 ≤ 1041666 := by omega
    refine ⟨_, _, rfl, rfl, ⟨_, _, _, si5351_SetupPLL_params_eq _
      (by show (0 : Int) ≤ x * F / 25000000; omega)
      (by show x * F / 25000000 ≤ 1000000; omega) hb0
      (by show x * F % 25000000 / 24 ≤ 1048576; omega) (by norm_num), ?_⟩, ?_⟩
    · exact setup_params_bounds (x * F / 25000000) (x * F % 25000000 / 24) 1041666 (by omega)
        (by omega) hb0 hb1 (by norm_num) (by norm_num)
    · by_cases h4 : x = 4
      · refine ⟨0, 0, 1, 3, ?_, by norm_num, by norm_num, by norm_num, by norm_num,
          by norm_num, by norm_num, by norm_num, by norm_num⟩
        unfold si5351_SetupOutput_params
        rw [if_pos h4]
      · refine ⟨_, _, _, _, si5351_SetupOutput_params_eq _ h4
          (by show (0 : Int) ≤ x; omega) (by show x ≤ 1000000; omega) (by norm_num)
          (by norm_num) (by norm_num), by norm_num, ?_⟩
        exact setup_params_bounds x 0 1 (by omega) (by omega) (by norm_num) (by norm_num)
          (by norm_num) (by norm_num)

/-- C29: for every `Fclk` in [8000, 160000000] and correction 0, the
parameters that `si5351_SetupPLL` and `si5351_SetupOutput` (on an output
0..2) derive from the result of `si5351_Calc` satisfy `0 ≤ P1 < 2^18`,
`0 ≤ P2 < 2^20`, `0 < P3 < 2^20` and `P2 < P3`, and the nine-byte block each
of them sends through `si5351_writeBulk` decodes by the register layout to
exactly `(P1, P2, P3, divBy4)`: no bit is dropped. -/
theorem si5351_registers_lossless (Fclk : Int) (h1 : 8000 ≤ Fclk) (h2 : Fclk ≤ 160000000)
    (pll_sel pllSource : si5351PLL_t) (rdiv_code : si5351RDiv_t → Nat)
    (output driveStrength phaseOffset : Nat) (hout : output ≤ 2) :
    ∃ pll out, si5351_Calc Fclk 0 = some (pll, out) ∧
      (∃ P1 P2 P3 : Int, si5351_SetupPLL_params pll = some (P1, P2, P3) ∧
        0 ≤ P1 ∧ P1 < 2 ^ 18 ∧ 0 ≤ P2 ∧ P2 < 2 ^ 20 ∧ 0 < P3 ∧ P3 < 2 ^ 20 ∧ P2 < P3 ∧
        ∃ block, si5351_SetupPLL pll_sel pll = some [block, [177, 0xa0]] ∧
          decode_params block = (P1.toNat, P2.toNat, P3.toNat, 0)) ∧
      (∃ (P1 P2 P3 : Int) (divBy4 : Nat),
        si5351_SetupOutput_params out = some (P1, P2, P3, divBy4) ∧
        0 ≤ P1 ∧ P1 < 2 ^ 18 ∧ 0 ≤ P2 ∧ P2 < 2 ^ 20 ∧ 0 < P3 ∧ P3 < 2 ^ 20 ∧ P2 < P3 ∧
        ∃ ctl block phase,
          si5351_SetupOutput rdiv_code output pllSource driveStrength out phaseOffset =
            some (0, [ctl, block, phase]) ∧
          decode_params block = (P1.toNat, P2.toNat, P3.toNat, divBy4)) := by
  obtain ⟨pll, out, hcalc, hmode, ⟨A1, A2, A3, hA, a1, a2, a3, a4, a5, a6, a7⟩,
    ⟨B1, B2, B3, d, hB, hd, b1, b2, b3, b4, b5, b6, b7⟩⟩ := si5351_Calc_params Fclk h1 h2
  have hpll : ∃ base, si5351_SetupPLL pll_sel pll =
      some [si5351_writeBulk base A1 A2 A3 0 0, [177, 0xa0]] := by
    unfold si5351_SetupPLL
    rw [hA]
    exact ⟨_, rfl⟩
  have hclk : ∃ ctl base phase,
      si5351_SetupOutput rdiv_code output pllSource driveStrength out phaseOffset =
        some (0, [ctl, si5351_writeBulk base B1 B2 B3 d (rdiv_code out.rdiv), phase]) := by
    unfold si5351_SetupOutput
    rw [if_neg (by omega), if_neg (by rw [hmode]; rintro ⟨h, _⟩; exact absurd h (by decide)), hB]
    exact ⟨_, _, _, rfl⟩
  obtain ⟨baseA, hpll⟩ := hpll
  obtain ⟨ctl, baseB, phase, hclk⟩ := hclk
  exact ⟨pll, out, hcalc,
    ⟨A1, A2, A3, hA, a1, by norm_num; exact a2, a3, by norm_num; exact a4, a5,
      by norm_num; exact a6, a7, _, hpll, decode_writeBulk baseA A1 A2 A3 0 0 a1 a2 a3 a4
        (le_of_lt a5) a6 (by norm_num)⟩,
    ⟨B1, B2, B3, d, hB, b1, by norm_num; exact b2, b3, by norm_num; exact b4, b5,
      by norm_num; exact b6, b7, ctl, _, phase, hclk, decode_writeBulk baseB B1 B2 B3 d
        (rdiv_code out.rdiv) b1 b2 b3 b4 (le_of_lt b5) b6 hd⟩⟩

theorem si5351_registers_lossless_witness :
    (8000 : Int) ≤ 150000000 ∧ (150000000 : Int) ≤ 160000000 ∧ (0 : Nat) ≤ 2 ∧
    ∃ pll out, si5351_Calc 150000000 0 = some (pll, out) ∧
      (∃ P1 P2 P3 : Int, si5351_SetupPLL_params pll = some (P1, P2, P3) ∧
        0 ≤ P1 ∧ P1 < 2 ^ 18 ∧ 0 ≤ P2 ∧ P2 < 2 ^ 20 ∧ 0 < P3 ∧ P3 < 2 ^ 20 ∧ P2 < P3 ∧
        ∃ block, si5351_SetupPLL si5351PLL_t.SI5351_PLL_A pll = some [block, [177, 0xa0]] ∧
          decode_params block = (P1.toNat, P2.toNat, P3.toNat, 0)) ∧
      (∃ (P1 P2 P3 : Int) (divBy4 : Nat),
        si5351_SetupOutput_params out = some (P1, P2, P3, divBy4) ∧
        0 ≤ P1 ∧ P1 < 2 ^ 18 ∧ 0 ≤ P2 ∧ P2 < 2 ^ 20 ∧ 0 < P3 ∧ P3 < 2 ^ 20 ∧ P2 < P3 ∧
        ∃ ctl block phase,
          si5351_SetupOutput (fun _ => 0) 0 si5351PLL_t.SI5351_PLL_A 3 out 0 =
            some (0, [ctl, block, phase]) ∧
          decode_params block = (P1.toNat, P2.toNat, P3.toNat, divBy4)) :=
  ⟨by decide, by decide, by decide,
    si5351_registers_lossless 150000000 (by decide) (by decide) si5351PLL_t.SI5351_PLL_A
      si5351PLL_t.SI5351_PLL_A (fun _ => 0) 0 3 0 (by decide)⟩

end Fx2adc
